import Mathlib

/-!
# zb: public market-data REST client (`zb/rest_api.go`)

A shallow embedding of the five public operations `GetSymbols`,
`GetLatestQuote`, `GetKlines`, `GetTrades`, `GetDepth` and of the transport
helper `doGet`, followed by theorems about them.

Conventions of the embedding.

* A Go `string` that travels into a URL is a list of bytes (`GoString`).
* A response body is a JSON document (`JSON`) or `none` when the bytes hold no
  JSON document.  Strings and object keys inside a document are decoded text.
* A Go result `(*T, error)` is a pair `Option T × Option GoError`; `none` is `nil`.
* Machine integers are `Nat`/`Int` with explicit wrap-around (`toByte`, `toUint64`).
* `float64` values are kept abstract: `Float64Ops` packages the value type, its
  zero and `strconv.ParseFloat` with the two facts of its contract that the
  client relies on.
* The library calls (`jsonparser`, `strconv`, `net/url`, `errors`) are modelled
  after the behaviour of those libraries on well-formed documents.  A key path
  is followed through objects (by member name, first occurrence), arrays (by
  `[i]`) and the text of a string (by `[i]`, see `JSON.string`); a value of any
  other kind has nothing under it.
-/

namespace Zb

/-! ## Go values -/

/-- A byte. -/
abbrev Byte := Fin 256

/-- A Go string as its bytes. -/
abbrev GoString := List Byte

/-- The bytes of an ASCII literal. -/
def ascii (s : String) : GoString := s.toList.map (fun c => Fin.ofNat c.toNat)

/-- Go `error` values: an opaque message, or `errors.WithStack` around a cause. -/
inductive GoError where
  | msg (text : String)
  | withStack (cause : GoError)
deriving DecidableEq, Repr

/-- Model of `errors.WithStack`: `nil` stays `nil`, anything else is wrapped. -/
def WithStack : Option GoError → Option GoError
  | none => none
  | some e => some (GoError.withStack e)

/-- Go conversion `byte(v)` of an `int64`: the low eight bits. -/
def toByte (v : Int) : Nat := (v % 256).toNat

/-- Go conversion `uint64(v)` of an `int64`: the value modulo `2^64`. -/
def toUint64 (v : Int) : Nat := (v % 18446744073709551616).toNat

/-- The two error kinds of `strconv.NumError`. -/
inductive NumError where
  | ErrSyntax
  | ErrRange
deriving DecidableEq, Repr

/-- The `float64` interface the client uses: the value type, its zero and
`strconv.ParseFloat(s, 64)` (value and optional error).  The two proof fields
record the documented contract: a syntax error comes with the value zero, and
the empty string is a syntax error. -/
structure Float64Ops where
  F : Type
  zero : F
  ParseFloat : String → F × Option NumError
  malformed_zero : ∀ s, (ParseFloat s).2 = some NumError.ErrSyntax → (ParseFloat s).1 = zero
  empty_malformed : (ParseFloat "").2 = some NumError.ErrSyntax

/-! ## strconv -/

/-- Value of a decimal digit character, `none` for any other character. -/
def digitVal (c : Char) : Option Nat :=
  if 48 ≤ c.toNat ∧ c.toNat ≤ 57 then some (c.toNat - 48) else none

/-- The loop of `strconv.ParseUint(s, 10, 64)` from accumulator `n`:
a non-digit is a syntax error with value 0; `n >= cutoff` or an overflowing
addition is a range error with value `maxUint64`. -/
def parseUintLoop : List Char → Nat → Nat × Option NumError
  | [], n => (n, none)
  | c :: cs, n =>
    match digitVal c with
    | none => (0, some NumError.ErrSyntax)
    | some d =>
      if n ≥ 18446744073709551615 / 10 + 1 then (18446744073709551615, some NumError.ErrRange)
      else
        let n10 := n * 10
        let n1 := (n10 + d) % 18446744073709551616
        if n1 < n10 ∨ n1 > 18446744073709551615 then (18446744073709551615, some NumError.ErrRange)
        else parseUintLoop cs n1

/-- Model of `strconv.ParseUint(s, 10, 64)`. -/
def ParseUint (s : String) : Nat × Option NumError :=
  if s.toList = [] then (0, some NumError.ErrSyntax) else parseUintLoop s.toList 0

/-- Model of `strconv.FormatUint(n, 10)`: the decimal rendering. -/
def FormatUint (n : Nat) : GoString := ascii (Nat.repr n)

/-! ## jsonparser -/

/-- A JSON document.  Numbers keep their literal text, strings and keys are
decoded.  `jsonparser` hands a string value on as the text between its quotes,
and an index key `[i]` applied to that text scans it as data; `scan` lists the
items such a scan finds in the text of this string (empty when it finds none,
as for every text without a `[`).  The theorems hold for every `scan`. -/
inductive JSON where
  | null
  | bool (b : Bool)
  | number (lit : String)
  | string (s : String) (scan : List JSON)
  | array (elems : List JSON)
  | object (members : List (String × JSON))

/-- The errors of `jsonparser` the client can meet. -/
def KeyPathNotFoundError : GoError := GoError.msg "Key path not found"
/-- Error for a value that cannot be parsed. -/
def MalformedValueError : GoError := GoError.msg "Malformed value"
/-- Error for data that is not an array. -/
def MalformedArrayError : GoError := GoError.msg "Malformed array"
/-- Error for data that is not an object. -/
def MalformedObjectError : GoError := GoError.msg "Malformed object"
/-- Error of `GetInt`/`GetFloat` on a value that is not a number. -/
def NotNumberError : GoError := GoError.msg "Value is not a number"
/-- Error of `GetString` on a value that is not a string. -/
def NotStringError : GoError := GoError.msg "Value is not a string"
/-- Error of `ParseInt` on an integer outside `int64`. -/
def OverflowIntegerError : GoError := GoError.msg "Integer overflow"

/-- Index named by a key of the form `[digits]`, as `searchKeys` reads it. -/
def arrayIndex (key : String) : Option Nat :=
  match key.toList with
  | '[' :: rest =>
    match rest.reverse with
    | ']' :: ds =>
      if ds = [] then none
      else ds.reverse.foldl (fun acc c => acc.bind (fun n => (digitVal c).map (fun d => n * 10 + d))) (some 0)
    | _ => none
  | _ => none

/-- One step of `searchKeys`: the member of an object with the given key (first
occurrence), the element of an array named by an index key, or the item an
index key finds in the text of a string. -/
def lookupKey (v : JSON) (key : String) : Option JSON :=
  match v with
  | JSON.object ms => (ms.find? (fun m => m.1 = key)).map (fun m => m.2)
  | JSON.array xs => (arrayIndex key).bind (fun i => xs[i]?)
  | JSON.string _ scan => (arrayIndex key).bind (fun i => scan[i]?)
  | _ => none

/-- Model of `searchKeys`: descend along the key path. -/
def searchKeys : Option JSON → List String → Option JSON
  | data, [] => data
  | none, _ :: _ => none
  | some v, k :: ks => searchKeys (lookupKey v k) ks

/-- Model of `jsonparser.Get`: the value at the key path (`none` stands for
`nil` bytes) and the error. -/
def Get (data : Option JSON) (keys : List String) : Option JSON × Option GoError :=
  match searchKeys data keys with
  | none => (none, some KeyPathNotFoundError)
  | some v => (some v, none)

/-- The loop of `jsonparser`'s `parseInt` over the digits: `none` for a non-digit
(malformed), `some none` for overflow of `uint64`, else the magnitude. -/
def parseIntLoop : List Char → Nat → Option (Option Nat)
  | [], n => some (some n)
  | c :: cs, n =>
    match digitVal c with
    | none => none
    | some d =>
      if n > 18446744073709551615 / 10 then some none
      else
        let n10 := n * 10
        let n1 := (n10 + d) % 18446744073709551616
        if n1 < n10 then some none else parseIntLoop cs n1

/-- Model of `jsonparser.ParseInt`: an optional `-` and decimal digits, inside `int64`. -/
def ParseInt (lit : String) : Int × Option GoError :=
  match lit.toList with
  | [] => (0, some MalformedValueError)
  | c :: cs =>
    let neg := c = '-'
    let digits := if neg then cs else c :: cs
    match parseIntLoop digits 0 with
    | none => (0, some MalformedValueError)
    | some none => (0, some OverflowIntegerError)
    | some (some n) =>
      if n > 9223372036854775807 then
        if neg ∧ n = 9223372036854775808 then (-9223372036854775808, none)
        else (0, some OverflowIntegerError)
      else if neg then (-(n : Int), none) else ((n : Int), none)

/-- Model of `jsonparser.GetInt`. -/
def GetInt (data : Option JSON) (keys : List String) : Int × Option GoError :=
  match Get data keys with
  | (_, some e) => (0, some e)
  | (some (JSON.number lit), none) => ParseInt lit
  | (_, none) => (0, some NotNumberError)

/-- Model of `jsonparser.ParseFloat`: `strconv.ParseFloat`, any error giving zero. -/
def jsonParseFloat (fp : Float64Ops) (lit : String) : fp.F × Option GoError :=
  match fp.ParseFloat lit with
  | (v, none) => (v, none)
  | (_, some _) => (fp.zero, some MalformedValueError)

/-- Model of `jsonparser.GetFloat`. -/
def GetFloat (fp : Float64Ops) (data : Option JSON) (keys : List String) : fp.F × Option GoError :=
  match Get data keys with
  | (_, some e) => (fp.zero, some e)
  | (some (JSON.number lit), none) => jsonParseFloat fp lit
  | (_, none) => (fp.zero, some NotNumberError)

/-- Model of `jsonparser.GetString`. -/
def GetString (data : Option JSON) (keys : List String) : String × Option GoError :=
  match Get data keys with
  | (_, some e) => ("", some e)
  | (some (JSON.string s _), none) => (s, none)
  | (_, none) => ("", some NotStringError)

/-- Value of a hexadecimal digit (the `h2I` table of `jsonparser`). -/
def hexVal (c : Char) : Option Nat :=
  if 48 ≤ c.toNat ∧ c.toNat ≤ 57 then some (c.toNat - 48)
  else if 65 ≤ c.toNat ∧ c.toNat ≤ 70 then some (c.toNat - 55)
  else if 97 ≤ c.toNat ∧ c.toNat ≤ 102 then some (c.toNat - 87)
  else none

/-- Model of `decodeSingleUnicodeEscape`: the four hex digits at positions 2 to 5. -/
def decodeSingleUnicodeEscape : List Char → Option Nat
  | _ :: _ :: a :: b :: c :: d :: _ =>
    match hexVal a, hexVal b, hexVal c, hexVal d with
    | some h1, some h2, some h3, some h4 => some (h1 * 4096 + h2 * 256 + h3 * 16 + h4)
    | _, _, _, _ => none
  | _ => none

/-- Model of `decodeUnicodeEscape`: the rune and the number of input characters,
a UTF-16 surrogate needing a second escape for its low half. -/
def decodeUnicodeEscape (inp : List Char) : Option (Nat × Nat) :=
  match decodeSingleUnicodeEscape inp with
  | none => none
  | some r =>
    if r ≤ 65535 ∧ ¬ (55296 ≤ r ∧ r ≤ 57343) then some (r, 6)
    else
      match decodeSingleUnicodeEscape (inp.drop 6) with
      | none => none
      | some r2 =>
        if r2 < 56320 then none
        else some (65536 + (r - 55296) * 1024 + (r2 - 56320), 12)

/-- The character `utf8.EncodeRune` writes: the rune, or U+FFFD when it is not a
Unicode scalar value. -/
def encodeRune (r : Nat) : Char :=
  if r < 55296 ∨ (57343 < r ∧ r < 1114112) then Char.ofNat r else Char.ofNat 65533

/-- Model of `unescapeToUTF8`: the length of the escape at the head of the input
and the character it stands for. -/
def unescapeToUTF8 : List Char → Option (Nat × Char)
  | '\\' :: e :: rest =>
    if e = '"' then some (2, '"')
    else if e = '\\' then some (2, '\\')
    else if e = '/' then some (2, '/')
    else if e = 'b' then some (2, Char.ofNat 8)
    else if e = 'f' then some (2, Char.ofNat 12)
    else if e = 'n' then some (2, Char.ofNat 10)
    else if e = 'r' then some (2, Char.ofNat 13)
    else if e = 't' then some (2, Char.ofNat 9)
    else if e = 'u' then
      (decodeUnicodeEscape ('\\' :: e :: rest)).map (fun p => (p.1, encodeRune p.2))
    else none
  | _ => none

/-- The loop of `Unescape`; `skip` counts the characters of an escape still to pass. -/
def unescapeLoop : List Char → Nat → Option (List Char)
  | [], _ => some []
  | _ :: rest, skip + 1 => unescapeLoop rest skip
  | c :: rest, 0 =>
    if c = '\\' then
      match unescapeToUTF8 (c :: rest) with
      | none => none
      | some (len, ch) => (unescapeLoop rest (len - 1)).map (fun out => ch :: out)
    else (unescapeLoop rest 0).map (fun out => c :: out)

/-- Model of `jsonparser.Unescape`. -/
def Unescape (s : String) : Option String :=
  (unescapeLoop s.toList 0).map String.mk

/-- Model of `jsonparser.ParseString`: unescape, the empty string on a bad escape. -/
def ParseString (b : String) : String × Option GoError :=
  match Unescape b with
  | none => ("", some MalformedValueError)
  | some s => (s, none)

/-- The member loop of `ObjectEach`: the callback sees each key and value in
document order and a callback error stops the loop. -/
def objectEachLoop {σ : Type} (callback : σ → String → JSON → σ × Option GoError) :
    List (String × JSON) → σ → σ × Option GoError
  | [], st => (st, none)
  | (k, v) :: ms, st =>
    match callback st k v with
    | (st1, some e) => (st1, some e)
    | (st1, none) => objectEachLoop callback ms st1

/-- Model of `jsonparser.ObjectEach` without a key path.  The state `σ` is what
the Go closure captures; the key handed to the callback is already unescaped. -/
def ObjectEach {σ : Type} (data : Option JSON)
    (callback : σ → String → JSON → σ × Option GoError) (init : σ) : σ × Option GoError :=
  match data with
  | some (JSON.object ms) => objectEachLoop callback ms init
  | _ => (init, some MalformedObjectError)

/-- Model of `jsonparser.ArrayEach`: the callback sees each element of the array
found at the key path, in document order. -/
def ArrayEach {σ : Type} (data : Option JSON) (cb : σ → JSON → σ) (keys : List String)
    (init : σ) : σ × Option GoError :=
  match searchKeys data keys with
  | none => (init, some (if keys = [] then MalformedObjectError else KeyPathNotFoundError))
  | some (JSON.array xs) => (xs.foldl cb init, none)
  | some _ => (init, some MalformedArrayError)

/-! ## Go maps -/

/-- A Go `map[string]V` as an association list with distinct keys. -/
abbrev GoMap (V : Type) := List (String × V)

/-- The assignment `m[k] = v`. -/
def mapSet {V : Type} : GoMap V → String → V → GoMap V
  | [], k, v => [(k, v)]
  | (k1, v1) :: rest, k, v => if k1 = k then (k, v) :: rest else (k1, v1) :: mapSet rest k v

/-- The lookup `m[k]`. -/
def mapGet {V : Type} (m : GoMap V) (k : String) : Option V :=
  (m.find? (fun e => e.1 = k)).map (fun e => e.2)

/-! ## net/url -/

/-- Model of `url.Values` (`map[string][]string`), keys distinct. -/
abbrev Values := List (GoString × List GoString)

/-- Model of `Values.Set`: the key now holds exactly the one value. -/
def valuesSet : Values → GoString → GoString → Values
  | [], k, v => [(k, [v])]
  | (k1, vs) :: rest, k, v => if k1 = k then (k, [v]) :: rest else (k1, vs) :: valuesSet rest k v

/-- Model of `m[key] = append(m[key], value)`. -/
def valuesAdd : Values → GoString → GoString → Values
  | [], k, v => [(k, [v])]
  | (k1, vs) :: rest, k, v => if k1 = k then (k, vs ++ [v]) :: rest else (k1, vs) :: valuesAdd rest k v

/-- Bytes `net/url` leaves as they are in a query component: letters, digits
and `-`, `_`, `.`, `~`. -/
def shouldEscape (c : Byte) : Bool :=
  ¬ ((97 ≤ c.val ∧ c.val ≤ 122) ∨ (65 ≤ c.val ∧ c.val ≤ 90) ∨ (48 ≤ c.val ∧ c.val ≤ 57)
      ∨ c.val = 45 ∨ c.val = 95 ∨ c.val = 46 ∨ c.val = 126)

/-- The digit `"0123456789ABCDEF"[n]`. -/
def upperhex (n : Nat) : Byte := if n < 10 then Fin.ofNat (48 + n) else Fin.ofNat (55 + n)

/-- Escape of one byte in a query component. -/
def escapeByte (c : Byte) : GoString :=
  if c.val = 32 then [43]
  else if shouldEscape c then [37, upperhex (c.val / 16), upperhex (c.val % 16)]
  else [c]

/-- Model of `url.QueryEscape`. -/
def QueryEscape (s : GoString) : GoString := s.flatMap escapeByte

/-- Lexicographic order on byte strings, as Go compares strings. -/
def strLe : GoString → GoString → Bool
  | [], _ => true
  | _ :: _, [] => false
  | a :: as, b :: bs => if a.val < b.val then true else if b.val < a.val then false else strLe as bs

/-- Insertion of a key into a sorted list of keys. -/
def insertKey (k : GoString) : List GoString → List GoString
  | [] => [k]
  | x :: xs => if strLe k x then k :: x :: xs else x :: insertKey k xs

/-- Model of `slices.Sort(keys)`. -/
def sortKeys (ks : List GoString) : List GoString := ks.foldr insertKey []

/-- The values stored under a key. -/
def valuesGet (v : Values) (k : GoString) : List GoString :=
  match v.find? (fun e => e.1 = k) with
  | some e => e.2
  | none => []

/-- The pieces written to the buffer of `Values.Encode`, a separator before
each piece but the first. -/
def joinWith (sep : Byte) : List GoString → GoString
  | [] => []
  | [x] => x
  | x :: y :: rest => x ++ sep :: joinWith sep (y :: rest)

/-- Model of `Values.Encode`: `key=value` pairs joined by `&`, sorted by key. -/
def valuesEncode (v : Values) : GoString :=
  let keys := sortKeys (v.map (fun e => e.1))
  let pairs := keys.flatMap (fun k => (valuesGet v k).map (fun val => QueryEscape k ++ 61 :: QueryEscape val))
  joinWith 38 pairs

/-- Hexadecimal digit test of `net/url`. -/
def ishex (c : Byte) : Bool :=
  (48 ≤ c.val ∧ c.val ≤ 57) ∨ (97 ≤ c.val ∧ c.val ≤ 102) ∨ (65 ≤ c.val ∧ c.val ≤ 70)

/-- Value of a hexadecimal digit in `net/url`. -/
def unhex (c : Byte) : Nat :=
  if 48 ≤ c.val ∧ c.val ≤ 57 then c.val - 48
  else if 97 ≤ c.val ∧ c.val ≤ 102 then c.val - 97 + 10
  else if 65 ≤ c.val ∧ c.val ≤ 70 then c.val - 65 + 10
  else 0

/-- The decoding loop of `url.QueryUnescape`: `%XX` is a byte, `+` is a space;
`skip` counts the bytes of an escape still to pass; `none` is an `EscapeError`. -/
def queryUnescapeLoop : GoString → Nat → Option GoString
  | [], _ => some []
  | _ :: rest, skip + 1 => queryUnescapeLoop rest skip
  | c :: rest, 0 =>
    if c.val = 37 then
      match rest.take 2 with
      | [a, b] =>
        if ishex a ∧ ishex b then
          (queryUnescapeLoop rest 2).map (fun out => Fin.ofNat (unhex a * 16 + unhex b) :: out)
        else none
      | _ => none
    else if c.val = 43 then (queryUnescapeLoop rest 0).map (fun out => (32 : Byte) :: out)
    else (queryUnescapeLoop rest 0).map (fun out => c :: out)

/-- Model of `url.QueryUnescape`. -/
def QueryUnescape (s : GoString) : Option GoString := queryUnescapeLoop s 0

/-- Split at every separator byte (`strings.Cut` applied until the input ends). -/
def splitSep (sep : Byte) : GoString → List GoString
  | [] => [[]]
  | c :: rest =>
    if c = sep then [] :: splitSep sep rest
    else (c :: (splitSep sep rest).headD []) :: (splitSep sep rest).tail

/-- Model of `strings.Cut(s, sep)` for a one-byte separator: before and after the
first separator. -/
def cut (sep : Byte) : GoString → GoString × GoString
  | [] => ([], [])
  | c :: rest => if c = sep then ([], rest) else ((c :: (cut sep rest).1), (cut sep rest).2)

/-- One round of the loop of `url.ParseQuery` on a segment between `&`s. -/
def parseQueryStep (acc : Values × Option GoError) (seg : GoString) : Values × Option GoError :=
  if (59 : Byte) ∈ seg then
    (acc.1, some (GoError.msg "invalid semicolon separator in query"))
  else if seg = [] then acc
  else
    match QueryUnescape (cut 61 seg).1 with
    | none => (acc.1, if acc.2 = none then some (GoError.msg "invalid URL escape") else acc.2)
    | some key =>
      match QueryUnescape (cut 61 seg).2 with
      | none => (acc.1, if acc.2 = none then some (GoError.msg "invalid URL escape") else acc.2)
      | some value => (valuesAdd acc.1 key value, acc.2)

/-- Model of `url.ParseQuery`. -/
def ParseQuery (query : GoString) : Values × Option GoError :=
  if query = [] then ([], none) else (splitSep 38 query).foldl parseQueryStep ([], none)

/-- Model of `url.URL` for the addresses the client builds: the text up to the
query, and the raw query. -/
structure URL where
  base : GoString
  RawQuery : GoString

/-- Model of `url.Parse` on an address without fragment: split at the first `?`. -/
def urlParse (raw : GoString) : URL := { base := (cut 63 raw).1, RawQuery := (cut 63 raw).2 }

/-- Model of `URL.Query`: the parsed raw query, errors dropped. -/
def urlQuery (u : URL) : Values := (ParseQuery u.RawQuery).1

/-- Model of `URL.String`: a `?` and the raw query follow when it is not empty. -/
def urlString (u : URL) : GoString :=
  if u.RawQuery = [] then u.base else u.base ++ [63] ++ u.RawQuery

/-! ## The client (`zb/rest_api.go`) -/

/-- The constant `DataApiUrl`. -/
def DataApiUrl : GoString := ascii "http://api.zb.com/data/v1/"

/-- The type `SymbolConfig`: two bytes. -/
structure SymbolConfig where
  AmountScale : Nat
  PriceScale : Nat
deriving DecidableEq, Repr

/-- The type `Quote`. -/
structure Quote (F : Type) where
  Volume : F
  Last : F
  Sell : F
  Buy : F
  High : F
  Low : F
  Time : Nat
deriving DecidableEq

/-- The type `Kline`. -/
structure Kline (F : Type) where
  Open : F
  Close : F
  High : F
  Low : F
  Volume : F
  Time : Nat
deriving DecidableEq

/-- The type `Trade`. -/
structure Trade (F : Type) where
  TradeId : Nat
  TradeType : String
  Price : F
  Amount : F
  Time : Nat
deriving DecidableEq

/-- The type `DepthEntry`. -/
structure DepthEntry (F : Type) where
  Price : F
  Amount : F
deriving DecidableEq

/-- The type `Depth`; a `nil` slice is the empty list. -/
structure Depth (F : Type) where
  Asks : List (DepthEntry F)
  Bids : List (DepthEntry F)
  Time : Nat
deriving DecidableEq

/-- What the client reads of a `fasthttp.Response`: the body. -/
structure Response where
  body : Option JSON

/-- The call `client.Do(req, resp)` of `fasthttp`: for a request address, the
response it fills in and the error it returns. -/
abbrev Client := GoString → Response × Option GoError

/-- The function `doGet`: one GET, the response and the wrapped error. -/
def doGet (client : Client) (url : GoString) : Response × Option GoError :=
  let resp := (client url).1
  let err := (client url).2
  (resp, WithStack err)

/-- The callback `GetSymbols` hands to `ObjectEach` (lines 28 to 34). -/
def symbolsCallback (configs : GoMap SymbolConfig) (key : String) (value : JSON) :
    GoMap SymbolConfig × Option GoError :=
  let symbol := (ParseString key).1
  let amountScale := (GetInt (some value) ["amountScale"]).1
  let priceScale := (GetInt (some value) ["priceScale"]).1
  (mapSet configs symbol { AmountScale := toByte amountScale, PriceScale := toByte priceScale }, none)

/-- The function `GetSymbols`. -/
def GetSymbols (client : Client) : Option (GoMap SymbolConfig) × Option GoError :=
  match doGet client (DataApiUrl ++ ascii "markets") with
  | (_, some err) => (none, WithStack (some err))
  | (resp, none) =>
    let configs := (ObjectEach resp.body symbolsCallback []).1
    (some configs, none)

/-- The address `GetLatestQuote` requests (lines 49 to 52). -/
def quoteURL (symbol : GoString) : GoString :=
  let u := urlParse (DataApiUrl ++ ascii "ticker")
  let q := valuesSet (urlQuery u) (ascii "market") symbol
  urlString { u with RawQuery := valuesEncode q }

/-- The function `GetLatestQuote`. -/
def GetLatestQuote (fp : Float64Ops) (client : Client) (symbol : GoString) :
    Option (Quote fp.F) × Option GoError :=
  match doGet client (quoteURL symbol) with
  | (_, some err) => (none, WithStack (some err))
  | (resp, none) =>
    let body := resp.body
    let ticker := (Get body ["ticker"]).1
    let volumeString := (GetString ticker ["vol"]).1
    let lastString := (GetString ticker ["last"]).1
    let sellString := (GetString ticker ["sell"]).1
    let buyString := (GetString ticker ["buy"]).1
    let highString := (GetString ticker ["high"]).1
    let lowString := (GetString ticker ["low"]).1
    let timeString := (GetString body ["date"]).1
    let volume := (fp.ParseFloat volumeString).1
    let last := (fp.ParseFloat lastString).1
    let sell := (fp.ParseFloat sellString).1
    let buy := (fp.ParseFloat buyString).1
    let high := (fp.ParseFloat highString).1
    let low := (fp.ParseFloat lowString).1
    let time := (ParseUint timeString).1
    (some { Volume := volume, Last := last, Sell := sell, Buy := buy, High := high, Low := low,
            Time := time }, none)

/-- The address `GetKlines` requests (lines 90 to 96). -/
def klinesURL (symbol period : GoString) (since size : Nat) : GoString :=
  let u := urlParse (DataApiUrl ++ ascii "kline")
  let q := urlQuery u
  let q := valuesSet q (ascii "market") symbol
  let q := valuesSet q (ascii "type") period
  let q := valuesSet q (ascii "since") (FormatUint since)
  let q := valuesSet q (ascii "size") (FormatUint size)
  urlString { u with RawQuery := valuesEncode q }

/-- The body of the callback of `GetKlines` (lines 105 to 111): the candle read
from one element of `data`. -/
def klineOf (fp : Float64Ops) (value : JSON) : Kline fp.F :=
  let time := (GetInt (some value) ["[0]"]).1
  let open_ := (GetFloat fp (some value) ["[1]"]).1
  let high := (GetFloat fp (some value) ["[2]"]).1
  let low := (GetFloat fp (some value) ["[3]"]).1
  let close := (GetFloat fp (some value) ["[4]"]).1
  let volume := (GetFloat fp (some value) ["[5]"]).1
  { Time := toUint64 time, Open := open_, High := high, Low := low, Close := close,
    Volume := volume }

/-- The callback `GetKlines` hands to `ArrayEach`: `klines = append(klines, ...)`. -/
def klinesCallback (fp : Float64Ops) (klines : List (Kline fp.F)) (value : JSON) :
    List (Kline fp.F) :=
  klines ++ [klineOf fp value]

/-- The function `GetKlines`; `since` is a `uint64` and `size` a `uint16`. -/
def GetKlines (fp : Float64Ops) (client : Client) (symbol period : GoString) (since size : Nat) :
    Option (List (Kline fp.F)) × Option GoError :=
  match doGet client (klinesURL symbol period since size) with
  | (_, some err) => (none, WithStack (some err))
  | (resp, none) =>
    let klines := (ArrayEach resp.body (klinesCallback fp) ["data"] []).1
    (some klines, none)

/-- The address `GetTrades` requests (lines 126 to 130). -/
def tradesURL (symbol : GoString) (since : Nat) : GoString :=
  let u := urlParse (DataApiUrl ++ ascii "trades")
  let q := urlQuery u
  let q := valuesSet q (ascii "market") symbol
  let q := valuesSet q (ascii "since") (FormatUint since)
  urlString { u with RawQuery := valuesEncode q }

/-- The body of the callback of `GetTrades` (lines 139 to 148): the trade read
from one element of the array. -/
def tradeOf (fp : Float64Ops) (value : JSON) : Trade fp.F :=
  let tradeId := (GetInt (some value) ["tid"]).1
  let tradeType := (GetString (some value) ["type"]).1
  let amountString := (GetString (some value) ["amount"]).1
  let priceString := (GetString (some value) ["price"]).1
  let time := (GetInt (some value) ["date"]).1
  let amount := (fp.ParseFloat amountString).1
  let price := (fp.ParseFloat priceString).1
  { TradeId := toUint64 tradeId, TradeType := tradeType, Price := price, Amount := amount,
    Time := toUint64 time }

/-- The callback `GetTrades` hands to `ArrayEach`: `trades = append(trades, ...)`. -/
def tradesCallback (fp : Float64Ops) (trades : List (Trade fp.F)) (value : JSON) :
    List (Trade fp.F) :=
  trades ++ [tradeOf fp value]

/-- The function `GetTrades`. -/
def GetTrades (fp : Float64Ops) (client : Client) (symbol : GoString) (since : Nat) :
    Option (List (Trade fp.F)) × Option GoError :=
  match doGet client (tradesURL symbol since) with
  | (_, some err) => (none, WithStack (some err))
  | (resp, none) =>
    let trades := (ArrayEach resp.body (tradesCallback fp) [] []).1
    (some trades, none)

/-- The address `GetDepth` requests (lines 166 to 170); `size` is a `uint8`. -/
def depthURL (symbol : GoString) (size : Nat) : GoString :=
  let u := urlParse (DataApiUrl ++ ascii "depth")
  let q := urlQuery u
  let q := valuesSet q (ascii "market") symbol
  let q := valuesSet q (ascii "size") (FormatUint size)
  urlString { u with RawQuery := valuesEncode q }

/-- The two callbacks of `GetDepth` (lines 179 to 185): their bodies are empty,
so the captured state is returned as it came. -/
def depthCallback (st : Unit) (_value : JSON) : Unit := st

/-- The function `GetDepth`: the two traversals change nothing and the result
carries the time only. -/
def GetDepth (fp : Float64Ops) (client : Client) (symbol : GoString) (size : Nat) :
    Option (Depth fp.F) × Option GoError :=
  match doGet client (depthURL symbol size) with
  | (_, some err) => (none, WithStack (some err))
  | (resp, none) =>
    let body := resp.body
    let time := (GetInt body ["timestamp"]).1
    let _asks := (ArrayEach body depthCallback ["asks"] ()).1
    let _bids := (ArrayEach body depthCallback ["bids"] ()).1
    (some { Asks := [], Bids := [], Time := toUint64 time }, none)

/-! ## An instance of the float interface

Exact decimals stand in for `float64` when the client is run on a concrete
body: a decimal literal parses to itself, anything else is a syntax error. -/

/-- An exact decimal number `mant / 10 ^ scale`. -/
structure Decimal where
  mant : Int
  scale : Nat
deriving DecidableEq, Repr

/-- Digits with at most one point: the digits read as one number, the count of
digits after the point and the count of all digits. -/
def decimalLoop : List Char → Bool → Nat → Nat → Nat → Option (Nat × Nat)
  | [], _, m, sc, nd => if nd = 0 then none else some (m, sc)
  | c :: cs, dot, m, sc, nd =>
    if c = '.' then (if dot then none else decimalLoop cs true m sc nd)
    else
      match digitVal c with
      | none => none
      | some d => decimalLoop cs dot (m * 10 + d) (if dot then sc + 1 else sc) (nd + 1)

/-- Drop the zeros at the end of the fraction. -/
def decimalNorm : Nat → Nat → Nat × Nat
  | m, 0 => (m, 0)
  | m, sc + 1 => if m % 10 = 0 then decimalNorm (m / 10) sc else (m, sc + 1)

/-- Parse an optional sign and a decimal literal. -/
def parseDecimal (s : String) : Option Decimal :=
  let neg := s.toList.head? = some '-'
  let body := if neg ∨ s.toList.head? = some '+' then s.toList.tail else s.toList
  match decimalLoop body false 0 0 0 with
  | none => none
  | some (m, sc) =>
    let r := decimalNorm m sc
    some { mant := if neg then -(r.1 : Int) else (r.1 : Int), scale := r.2 }

/-- The parser of the decimal instance. -/
def decimalParseFloat (s : String) : Decimal × Option NumError :=
  match parseDecimal s with
  | some d => (d, none)
  | none => ({ mant := 0, scale := 0 }, some NumError.ErrSyntax)

/-- The decimal instance of `Float64Ops`. -/
def decimalFloat : Float64Ops where
  F := Decimal
  zero := { mant := 0, scale := 0 }
  ParseFloat := decimalParseFloat
  malformed_zero := by
    intro s h
    unfold decimalParseFloat at h ⊢
    cases hp : parseDecimal s with
    | none => rfl
    | some d => rw [hp] at h; cases h
  empty_malformed := by decide

instance : DecidableEq decimalFloat.F := inferInstanceAs (DecidableEq Decimal)

/-! ## Reference readings of a document

The definitions of this section say, without the parsers of the code, what
number a literal denotes and which value of the document a field of a result
is read from.  The theorems compare the client with them. -/

/-- The number a run of decimal digits denotes, continuing from `n`; `none` when
a character is not a digit. -/
def digitsValue : List Char → Nat → Option Nat
  | [], n => some n
  | c :: cs, n =>
    match digitVal c with
    | none => none
    | some d => digitsValue cs (n * 10 + d)

/-- The unsigned 64-bit integer a decimal string holds: at least one character,
digits only, value below `2^64`. -/
def uintLiteral (s : String) : Option Nat :=
  if s.toList = [] then none
  else
    match digitsValue s.toList 0 with
    | some n => if n < 18446744073709551616 then some n else none
    | none => none

/-- The signed 64-bit integer an integer literal holds: an optional `-`, then
digits, value inside `int64`. -/
def intLiteral (lit : String) : Option Int :=
  match lit.toList with
  | [] => none
  | c :: cs =>
    if c = '-' then
      match digitsValue cs 0 with
      | some n => if n ≤ 9223372036854775808 then some (-(n : Int)) else none
      | none => none
    else
      match digitsValue (c :: cs) 0 with
      | some n => if n ≤ 9223372036854775807 then some (n : Int) else none
      | none => none

/-- The member of an object with the given name (the first of that name). -/
def member (v : JSON) (name : String) : Option JSON :=
  match v with
  | JSON.object ms => (ms.find? (fun m => m.1 = name)).map (fun m => m.2)
  | _ => none

/-- The value at position `i` of an element of `data`, as the key `[i]` finds it:
the `i`-th item of an array, the `i`-th item found in the text of a string, the
member named `[i]` of an object; nothing for a number, a boolean or null. -/
def position (v : JSON) (i : Nat) : Option JSON :=
  match v with
  | JSON.array xs => xs[i]?
  | JSON.string _ scan => scan[i]?
  | JSON.object ms => (ms.find? (fun m => m.1 = "[" ++ Nat.repr i ++ "]")).map (fun m => m.2)
  | _ => none

/-- An integer position read as `uint64` through `int64`: when the value is an
integer literal inside `int64`, the integer taken modulo `2^64` (the integer
itself when it is not negative); zero when the value is missing, not a number,
not an integer literal (a fraction or an exponent), or outside `int64`. -/
def specUint (v : Option JSON) : Nat :=
  match v with
  | some (JSON.number lit) =>
    match intLiteral lit with
    | some n => toUint64 n
    | none => 0
  | _ => 0

/-- A numeric position read as a float: the parse of the literal; zero when the
value is missing, not a number, or rejected by the parser. -/
def specFloat (fp : Float64Ops) (v : Option JSON) : fp.F :=
  match v with
  | some (JSON.number lit) =>
    match fp.ParseFloat lit with
    | (x, none) => x
    | (_, some _) => fp.zero
  | _ => fp.zero

/-- A string field: its text, the empty string when missing or not a string. -/
def specText (v : Option JSON) : String :=
  match v with
  | some (JSON.string s _) => s
  | _ => ""

/-- An integer field read as a byte: the integer the literal holds, taken modulo
256; zero when the value is missing or not an integer literal. -/
def specByte (v : Option JSON) : Nat :=
  match v with
  | some (JSON.number lit) =>
    match intLiteral lit with
    | some n => toByte n
    | none => 0
  | _ => 0

/-- The configuration a member of the markets object stands for. -/
def specConfig (value : JSON) : SymbolConfig :=
  { AmountScale := specByte (member value "amountScale"),
    PriceScale := specByte (member value "priceScale") }

/-- The candle an element of `data` stands for, position by position. -/
def specKline (fp : Float64Ops) (e : JSON) : Kline fp.F :=
  { Time := specUint (position e 0), Open := specFloat fp (position e 1),
    High := specFloat fp (position e 2), Low := specFloat fp (position e 3),
    Close := specFloat fp (position e 4), Volume := specFloat fp (position e 5) }

/-- The trade an element of the array stands for, key by key. -/
def specTrade (fp : Float64Ops) (e : JSON) : Trade fp.F :=
  { TradeId := specUint (member e "tid"), TradeType := specText (member e "type"),
    Amount := (fp.ParseFloat (specText (member e "amount"))).1,
    Price := (fp.ParseFloat (specText (member e "price"))).1,
    Time := specUint (member e "date") }

/-- A float field of a quote under the zero-fill policy: zero when the source is
missing, not a string, or not a number in syntax; else what the parser returns
(for a range error that is the value the parser returns with it). -/
def specQuoteFloat (fp : Float64Ops) (v : Option JSON) : fp.F :=
  match v with
  | some (JSON.string s _) =>
    match fp.ParseFloat s with
    | (_, some NumError.ErrSyntax) => fp.zero
    | (x, _) => x
  | _ => fp.zero

/-- The time of a quote under the zero-fill policy: the integer the `date` string
holds when it holds an unsigned 64-bit decimal integer; else `2^64 - 1` when
`strconv.ParseUint` reports a range error for the string, and zero in every
other case (missing, not a string, empty, a character that is not a digit). -/
def specQuoteTime (v : Option JSON) : Nat :=
  match v with
  | some (JSON.string s _) =>
    match uintLiteral s with
    | some n => n
    | none => if (ParseUint s).2 = some NumError.ErrRange then 18446744073709551615 else 0
  | _ => 0

/-! ## Sample clients and bodies -/

/-- A transport that succeeds with the given body for every address. -/
def okClient (doc : Option JSON) : Client := fun _ => ({ body := doc }, none)

/-- A transport that fails for every address. -/
def failClient : Client := fun _ => ({ body := none }, some (GoError.msg "connection refused"))

/-- The ticker body of the specification. -/
def tickerBody : JSON :=
  JSON.object [("ticker", JSON.object [("vol", JSON.string "100.5" []), ("last", JSON.string "50000.1" []),
      ("sell", JSON.string "50001" []), ("buy", JSON.string "49999" []), ("high", JSON.string "51000" []),
      ("low", JSON.string "49000" [])]),
    ("date", JSON.string "1700000000000" [])]

/-- The kline body of the specification. -/
def klineBody : JSON :=
  JSON.object [("data", JSON.array [JSON.array [JSON.number "1700000000", JSON.number "100",
      JSON.number "110", JSON.number "90", JSON.number "105", JSON.number "500"]])]

/-- The trades body of the specification. -/
def tradesBody : JSON :=
  JSON.array [JSON.object [("tid", JSON.number "1"), ("type", JSON.string "buy" []),
      ("amount", JSON.string "0.5" []), ("price", JSON.string "50000" []), ("date", JSON.number "1700000000")]]

/-- The depth body of the specification. -/
def depthBody : JSON :=
  JSON.object [("timestamp", JSON.number "1700000000"),
    ("asks", JSON.array [JSON.array [JSON.string "50100" [], JSON.string "1.2" []]]),
    ("bids", JSON.array [JSON.array [JSON.string "49900" [], JSON.string "2.3" []]])]

/-- The markets body of the specification. -/
def marketsBody : JSON :=
  JSON.object [("btcusdt", JSON.object [("amountScale", JSON.number "3"), ("priceScale", JSON.number "2")])]

/-- A ticker body whose `date` is `2^64`, one more than the largest `uint64`. -/
def overflowDateBody : JSON :=
  JSON.object [("ticker", JSON.object [("vol", JSON.string "100.5" []), ("last", JSON.string "50000.1" []),
      ("sell", JSON.string "50001" []), ("buy", JSON.string "49999" []), ("high", JSON.string "51000" []),
      ("low", JSON.string "49000" [])]),
    ("date", JSON.string "18446744073709551616" [])]

/-- A markets body with two distinct keys: `x`, a backslash, `t`, `y` (written
`"x\\ty"` in JSON text) and `x`, a tab, `y` (written `"x\ty"` in JSON text). -/
def backslashMarketsBody : JSON :=
  JSON.object [("x\\ty", JSON.object [("amountScale", JSON.number "3"), ("priceScale", JSON.number "2")]),
    ("x\ty", JSON.object [("amountScale", JSON.number "4"), ("priceScale", JSON.number "5")])]

/-- A kline body whose one element has the time `2^63`, a `uint64` above `int64`. -/
def bigTimeKlineBody : JSON :=
  JSON.object [("data", JSON.array [JSON.array [JSON.number "9223372036854775808", JSON.number "100",
      JSON.number "110", JSON.number "90", JSON.number "105", JSON.number "500"]])]

/-- A trades body whose one trade has the `tid` `2^63` and the `date` `2^64 - 1`. -/
def bigIdTradesBody : JSON :=
  JSON.array [JSON.object [("tid", JSON.number "9223372036854775808"), ("type", JSON.string "buy" []),
      ("amount", JSON.string "0.5" []), ("price", JSON.string "50000" []),
      ("date", JSON.number "18446744073709551615")]]

/-- A kline body whose elements are a string whose text scans as six numbers, an
object with members named `[0]` and `[1]`, and a number. -/
def oddKlineBody : JSON :=
  JSON.object [("data", JSON.array [
    JSON.string "[1,2,3,4,5,6]" [JSON.number "1", JSON.number "2", JSON.number "3",
      JSON.number "4", JSON.number "5", JSON.number "6"],
    JSON.object [("[0]", JSON.number "7"), ("[1]", JSON.number "8")],
    JSON.number "9"])]

/-- A kline element whose time is `-1`. -/
def wrapKline : JSON := JSON.array [JSON.number "-1"]

/-- A depth body whose `timestamp` is `-1`. -/
def wrapDepthBody : JSON := JSON.object [("timestamp", JSON.number "-1")]

/-- The value of a ticker field: the member of the `ticker` member of the body. -/
def tickerMember (body : Option JSON) (name : String) : Option JSON :=
  (body.bind (fun d => member d "ticker")).bind (fun t => member t name)

/-- A member of the body itself. -/
def bodyMember (body : Option JSON) (name : String) : Option JSON :=
  body.bind (fun d => member d name)

/-- The query string of a `kline` request: the four parameters `market`, `since`,
`size`, `type`, each once, joined by `&`, each value escaped. -/
def klinesQuery (symbol period : GoString) (since size : Nat) : GoString :=
  joinWith 38 [ascii "market=" ++ QueryEscape symbol, ascii "since=" ++ QueryEscape (FormatUint since),
    ascii "size=" ++ QueryEscape (FormatUint size), ascii "type=" ++ QueryEscape period]

/-! ## Transport failures and successes -/

theorem doGet_okClient (doc : Option JSON) (url : GoString) :
    doGet (okClient doc) url = ({ body := doc }, none) := rfl

/-- C2: when `doGet` returns a non-nil error for the address an operation
requests, the operation returns a nil result and a non-nil error; this holds
for each of the five public operations and for every argument. -/
theorem transport_failure_propagates (fp : Float64Ops) (client : Client)
    (symbol period : GoString) (since size : Nat) :
    ((doGet client (DataApiUrl ++ ascii "markets")).2 ≠ none →
        (GetSymbols client).1 = none ∧ (GetSymbols client).2 ≠ none) ∧
    ((doGet client (quoteURL symbol)).2 ≠ none →
        (GetLatestQuote fp client symbol).1 = none ∧ (GetLatestQuote fp client symbol).2 ≠ none) ∧
    ((doGet client (klinesURL symbol period since size)).2 ≠ none →
        (GetKlines fp client symbol period since size).1 = none ∧
        (GetKlines fp client symbol period since size).2 ≠ none) ∧
    ((doGet client (tradesURL symbol since)).2 ≠ none →
        (GetTrades fp client symbol since).1 = none ∧ (GetTrades fp client symbol since).2 ≠ none) ∧
    ((doGet client (depthURL symbol size)).2 ≠ none →
        (GetDepth fp client symbol size).1 = none ∧ (GetDepth fp client symbol size).2 ≠ none) := by
  refine ⟨?_, ?_, ?_, ?_, ?_⟩
  · intro h
    unfold GetSymbols
    cases hd : doGet client (DataApiUrl ++ ascii "markets") with
    | mk resp err =>
      cases err with
      | none => rw [hd] at h; exact absurd rfl h
      | some e => simp [WithStack]
  · intro h
    unfold GetLatestQuote
    cases hd : doGet client (quoteURL symbol) with
    | mk resp err =>
      cases err with
      | none => rw [hd] at h; exact absurd rfl h
      | some e => simp [WithStack]
  · intro h
    unfold GetKlines
    cases hd : doGet client (klinesURL symbol period since size) with
    | mk resp err =>
      cases err with
      | none => rw [hd] at h; exact absurd rfl h
      | some e => simp [WithStack]
  · intro h
    unfold GetTrades
    cases hd : doGet client (tradesURL symbol since) with
    | mk resp err =>
      cases err with
      | none => rw [hd] at h; exact absurd rfl h
      | some e => simp [WithStack]
  · intro h
    unfold GetDepth
    cases hd : doGet client (depthURL symbol size) with
    | mk resp err =>
      cases err with
      | none => rw [hd] at h; exact absurd rfl h
      | some e => simp [WithStack]

/-- C2 at a transport that refuses every connection: all five operations return
a nil result and a non-nil error. -/
theorem transport_failure_propagates_witness :
    ((GetSymbols failClient).1 = none ∧ (GetSymbols failClient).2 ≠ none) ∧
    ((GetLatestQuote decimalFloat failClient (ascii "btcusdt")).1 = none ∧
        (GetLatestQuote decimalFloat failClient (ascii "btcusdt")).2 ≠ none) ∧
    ((GetKlines decimalFloat failClient (ascii "btcusdt") (ascii "1min") 0 10).1 = none ∧
        (GetKlines decimalFloat failClient (ascii "btcusdt") (ascii "1min") 0 10).2 ≠ none) ∧
    ((GetTrades decimalFloat failClient (ascii "btcusdt") 0).1 = none ∧
        (GetTrades decimalFloat failClient (ascii "btcusdt") 0).2 ≠ none) ∧
    ((GetDepth decimalFloat failClient (ascii "btcusdt") 10).1 = none ∧
        (GetDepth decimalFloat failClient (ascii "btcusdt") 10).2 ≠ none) :=
  have h := transport_failure_propagates decimalFloat failClient (ascii "btcusdt") (ascii "1min") 0 10
  ⟨h.1 (by simp [doGet, failClient, WithStack]),
   h.2.1 (by simp [doGet, failClient, WithStack]),
   h.2.2.1 (by simp [doGet, failClient, WithStack]),
   h.2.2.2.1 (by simp [doGet, failClient, WithStack]),
   h.2.2.2.2 (by simp [doGet, failClient, WithStack])⟩

theorem get_ticker_absent (body : Option JSON) (h : searchKeys body ["ticker"] = none) (k : String) :
    (GetString (Get body ["ticker"]).1 [k]).1 = "" := by
  simp [Get, h, GetString, searchKeys]

theorem parseFloat_empty (fp : Float64Ops) : (fp.ParseFloat "").1 = fp.zero :=
  fp.malformed_zero "" fp.empty_malformed

/-- C3, refuted as stated: with a successful transport and a body that holds no
JSON document, each of the five operations returns a non-nil result and a nil
error; and for a body that is valid JSON without a `ticker` object,
`GetLatestQuote` returns a quote (all six prices zero) and a nil error. -/
theorem decode_failure_not_reported :
    ((GetSymbols (okClient none)).1 ≠ none ∧ (GetSymbols (okClient none)).2 = none) ∧
    ((GetLatestQuote decimalFloat (okClient none) (ascii "btcusdt")).1 ≠ none ∧
        (GetLatestQuote decimalFloat (okClient none) (ascii "btcusdt")).2 = none) ∧
    ((GetKlines decimalFloat (okClient none) (ascii "btcusdt") (ascii "1min") 0 10).1 ≠ none ∧
        (GetKlines decimalFloat (okClient none) (ascii "btcusdt") (ascii "1min") 0 10).2 = none) ∧
    ((GetTrades decimalFloat (okClient none) (ascii "btcusdt") 0).1 ≠ none ∧
        (GetTrades decimalFloat (okClient none) (ascii "btcusdt") 0).2 = none) ∧
    ((GetDepth decimalFloat (okClient none) (ascii "btcusdt") 10).1 ≠ none ∧
        (GetDepth decimalFloat (okClient none) (ascii "btcusdt") 10).2 = none) ∧
    GetLatestQuote decimalFloat
        (okClient (some (JSON.object [("date", JSON.string "1700000000000" [])]))) (ascii "btcusdt")
      = (some { Volume := decimalFloat.zero, Last := decimalFloat.zero, Sell := decimalFloat.zero,
                Buy := decimalFloat.zero, High := decimalFloat.zero, Low := decimalFloat.zero,
                Time := 1700000000000 }, none) := by
  refine ⟨?_, ?_, ?_, ?_, ?_, ?_⟩
  · simp [GetSymbols, doGet_okClient]
  · simp [GetLatestQuote, doGet_okClient]
  · simp [GetKlines, doGet_okClient]
  · simp [GetTrades, doGet_okClient]
  · simp [GetDepth, doGet_okClient]
  · decide

/-- C3, amended: when the transport succeeds for the address an operation
requests, the operation returns a non-nil result and a nil error whatever the
response body is (a JSON document or not); and `GetLatestQuote` on a body
without a `ticker` member returns a quote whose six prices are zero. -/
theorem transport_success_always_returns (fp : Float64Ops) (client : Client)
    (symbol period : GoString) (since size : Nat) :
    ((doGet client (DataApiUrl ++ ascii "markets")).2 = none →
        (GetSymbols client).1 ≠ none ∧ (GetSymbols client).2 = none) ∧
    ((doGet client (quoteURL symbol)).2 = none →
        (GetLatestQuote fp client symbol).1 ≠ none ∧ (GetLatestQuote fp client symbol).2 = none) ∧
    ((doGet client (klinesURL symbol period since size)).2 = none →
        (GetKlines fp client symbol period since size).1 ≠ none ∧
        (GetKlines fp client symbol period since size).2 = none) ∧
    ((doGet client (tradesURL symbol since)).2 = none →
        (GetTrades fp client symbol since).1 ≠ none ∧ (GetTrades fp client symbol since).2 = none) ∧
    ((doGet client (depthURL symbol size)).2 = none →
        (GetDepth fp client symbol size).1 ≠ none ∧ (GetDepth fp client symbol size).2 = none) ∧
    ((doGet client (quoteURL symbol)).2 = none →
      searchKeys (doGet client (quoteURL symbol)).1.body ["ticker"] = none →
        ∃ q, (GetLatestQuote fp client symbol).1 = some q ∧ q.Volume = fp.zero ∧ q.Last = fp.zero ∧
          q.Sell = fp.zero ∧ q.Buy = fp.zero ∧ q.High = fp.zero ∧ q.Low = fp.zero) := by
  refine ⟨?_, ?_, ?_, ?_, ?_, ?_⟩
  · intro h
    unfold GetSymbols
    cases hd : doGet client (DataApiUrl ++ ascii "markets") with
    | mk resp err => rw [hd] at h; cases h; simp
  · intro h
    unfold GetLatestQuote
    cases hd : doGet client (quoteURL symbol) with
    | mk resp err => rw [hd] at h; cases h; simp
  · intro h
    unfold GetKlines
    cases hd : doGet client (klinesURL symbol period since size) with
    | mk resp err => rw [hd] at h; cases h; simp
  · intro h
    unfold GetTrades
    cases hd : doGet client (tradesURL symbol since) with
    | mk resp err => rw [hd] at h; cases h; simp
  · intro h
    unfold GetDepth
    cases hd : doGet client (depthURL symbol size) with
    | mk resp err => rw [hd] at h; cases h; simp
  · intro h ht
    unfold GetLatestQuote
    cases hd : doGet client (quoteURL symbol) with
    | mk resp err =>
      rw [hd] at h ht
      cases h
      simp only at ht
      refine ⟨_, rfl, ?_, ?_, ?_, ?_, ?_, ?_⟩ <;>
        simp only [get_ticker_absent resp.body ht, parseFloat_empty]

/-- C3 amended, at a successful transport whose body is no JSON document. -/
theorem transport_success_always_returns_witness :
    ((GetSymbols (okClient none)).1 ≠ none ∧ (GetSymbols (okClient none)).2 = none) ∧
    ((GetLatestQuote decimalFloat (okClient none) (ascii "btcusdt")).1 ≠ none ∧
        (GetLatestQuote decimalFloat (okClient none) (ascii "btcusdt")).2 = none) ∧
    ((GetKlines decimalFloat (okClient none) (ascii "btcusdt") (ascii "1min") 0 10).1 ≠ none ∧
        (GetKlines decimalFloat (okClient none) (ascii "btcusdt") (ascii "1min") 0 10).2 = none) ∧
    ((GetTrades decimalFloat (okClient none) (ascii "btcusdt") 0).1 ≠ none ∧
        (GetTrades decimalFloat (okClient none) (ascii "btcusdt") 0).2 = none) ∧
    ((GetDepth decimalFloat (okClient none) (ascii "btcusdt") 10).1 ≠ none ∧
        (GetDepth decimalFloat (okClient none) (ascii "btcusdt") 10).2 = none) ∧
    (∃ q, (GetLatestQuote decimalFloat (okClient none) (ascii "btcusdt")).1 = some q ∧
        q.Volume = decimalFloat.zero ∧ q.Last = decimalFloat.zero ∧ q.Sell = decimalFloat.zero ∧
        q.Buy = decimalFloat.zero ∧ q.High = decimalFloat.zero ∧ q.Low = decimalFloat.zero) :=
  have h := transport_success_always_returns decimalFloat (okClient none) (ascii "btcusdt")
    (ascii "1min") 0 10
  ⟨h.1 rfl, h.2.1 rfl, h.2.2.1 rfl, h.2.2.2.1 rfl, h.2.2.2.2.1 rfl, h.2.2.2.2.2 rfl rfl⟩

/-- C1, the code at the depth body of the specification: `GetDepth` returns the
time only, `Asks` and `Bids` are empty although the body has one entry in each;
and this is so for every transport, argument and body. -/
theorem getDepth_drops_entries :
    GetDepth decimalFloat (okClient (some depthBody)) (ascii "btcusdt") 5
      = (some { Asks := [], Bids := [], Time := 1700000000 }, none) ∧
    ∀ (fp : Float64Ops) (client : Client) (symbol : GoString) (size : Nat),
      (GetDepth fp client symbol size).1 = none ∨
      ∃ d, (GetDepth fp client symbol size).1 = some d ∧ d.Asks = [] ∧ d.Bids = [] := by
  refine ⟨by decide, ?_⟩
  intro fp client symbol size
  unfold GetDepth
  cases hd : doGet client (depthURL symbol size) with
  | mk resp err =>
    cases err with
    | some e => exact Or.inl rfl
    | none => exact Or.inr ⟨_, rfl, rfl, rfl⟩

/-! ## The integer parsers against the numbers the literals denote -/

theorem digitVal_le {c : Char} {d : Nat} (h : digitVal c = some d) : d ≤ 9 := by
  unfold digitVal at h
  split at h
  · simp only [Option.some.injEq] at h
    omega
  · cases h

theorem digitsValue_ge : ∀ (cs : List Char) (n v : Nat), digitsValue cs n = some v → n ≤ v := by
  intro cs
  induction cs with
  | nil =>
    intro n v h
    simp only [digitsValue, Option.some.injEq] at h
    omega
  | cons c cs ih =>
    intro n v h
    unfold digitsValue at h
    cases hd : digitVal c with
    | none => rw [hd] at h; cases h
    | some d =>
      rw [hd] at h
      have := ih _ _ h
      omega

theorem parseUintLoop_spec : ∀ (cs : List Char) (n : Nat), n < 18446744073709551616 →
    match digitsValue cs n with
    | some v =>
      if v < 18446744073709551616 then parseUintLoop cs n = (v, none)
      else parseUintLoop cs n = (18446744073709551615, some NumError.ErrRange)
    | none =>
      parseUintLoop cs n = (0, some NumError.ErrSyntax) ∨
      parseUintLoop cs n = (18446744073709551615, some NumError.ErrRange) := by
  intro cs
  induction cs with
  | nil =>
    intro n hn
    simp [digitsValue, parseUintLoop, hn]
  | cons c cs ih =>
    intro n hn
    unfold digitsValue parseUintLoop
    cases hd : digitVal c with
    | none => simp
    | some d =>
      have hd9 := digitVal_le hd
      simp only
      by_cases hc : n ≥ 18446744073709551615 / 10 + 1
      · rw [if_pos hc]
        cases hv : digitsValue cs (n * 10 + d) with
        | none => simp
        | some v =>
          have := digitsValue_ge _ _ _ hv
          have hnot : ¬ v < 18446744073709551616 := by omega
          simp [hnot]
      · rw [if_neg hc]
        by_cases hov : n * 10 + d < 18446744073709551616
        · have hmod : (n * 10 + d) % 18446744073709551616 = n * 10 + d := Nat.mod_eq_of_lt hov
          rw [hmod]
          have hno : ¬ (n * 10 + d < n * 10 ∨ n * 10 + d > 18446744073709551615) := by omega
          rw [if_neg hno]
          exact ih _ hov
        · have hlt : (n * 10 + d) % 18446744073709551616 < n * 10 := by omega
          rw [if_pos (Or.inl hlt)]
          cases hv : digitsValue cs (n * 10 + d) with
          | none => simp
          | some v =>
            have := digitsValue_ge _ _ _ hv
            have hnot : ¬ v < 18446744073709551616 := by omega
            simp [hnot]

theorem parseUint_of_uintLiteral {s : String} {n : Nat} (h : uintLiteral s = some n) :
    ParseUint s = (n, none) := by
  unfold uintLiteral at h
  unfold ParseUint
  by_cases he : s.toList = []
  · rw [if_pos he] at h
    cases h
  · rw [if_neg he] at h ⊢
    have hs := parseUintLoop_spec s.toList 0 (by omega)
    cases hv : digitsValue s.toList 0 with
    | none => rw [hv] at h; cases h
    | some v =>
      rw [hv] at h hs
      by_cases hlt : v < 18446744073709551616
      · simp only [hlt, if_true, Option.some.injEq] at h hs
        rw [hs, h]
      · simp [hlt] at h

theorem parseUintLoop_error_value : ∀ (cs : List Char) (n : Nat),
    ((parseUintLoop cs n).2 = some NumError.ErrSyntax → (parseUintLoop cs n).1 = 0) ∧
    ((parseUintLoop cs n).2 = some NumError.ErrRange →
      (parseUintLoop cs n).1 = 18446744073709551615) := by
  intro cs
  induction cs with
  | nil => intro n; simp [parseUintLoop]
  | cons c cs ih =>
    intro n
    unfold parseUintLoop
    cases hd : digitVal c with
    | none => simp
    | some d =>
      simp only
      split
      · simp
      · split
        · simp
        · exact ih _

theorem parseUint_error_value (s : String) :
    ((ParseUint s).2 = some NumError.ErrSyntax → (ParseUint s).1 = 0) ∧
    ((ParseUint s).2 = some NumError.ErrRange → (ParseUint s).1 = 18446744073709551615) := by
  unfold ParseUint
  split
  · simp
  · exact parseUintLoop_error_value _ _

theorem parseIntLoop_spec : ∀ (cs : List Char) (n : Nat), n < 18446744073709551616 →
    match digitsValue cs n with
    | some v =>
      if v < 18446744073709551616 then parseIntLoop cs n = some (some v)
      else parseIntLoop cs n = some none
    | none => parseIntLoop cs n = none ∨ parseIntLoop cs n = some none := by
  intro cs
  induction cs with
  | nil =>
    intro n hn
    simp [digitsValue, parseIntLoop, hn]
  | cons c cs ih =>
    intro n hn
    unfold digitsValue parseIntLoop
    cases hd : digitVal c with
    | none => simp
    | some d =>
      have hd9 := digitVal_le hd
      simp only
      by_cases hc : n > 18446744073709551615 / 10
      · rw [if_pos hc]
        cases hv : digitsValue cs (n * 10 + d) with
        | none => simp
        | some v =>
          have := digitsValue_ge _ _ _ hv
          have hnot : ¬ v < 18446744073709551616 := by omega
          simp [hnot]
      · rw [if_neg hc]
        by_cases hov : n * 10 + d < 18446744073709551616
        · have hmod : (n * 10 + d) % 18446744073709551616 = n * 10 + d := Nat.mod_eq_of_lt hov
          rw [hmod]
          have hno : ¬ (n * 10 + d < n * 10) := by omega
          rw [if_neg hno]
          exact ih _ hov
        · have hlt : (n * 10 + d) % 18446744073709551616 < n * 10 := by omega
          rw [if_pos hlt]
          cases hv : digitsValue cs (n * 10 + d) with
          | none => simp
          | some v =>
            have := digitsValue_ge _ _ _ hv
            have hnot : ¬ v < 18446744073709551616 := by omega
            simp [hnot]

theorem parseInt_spec (lit : String) :
    match intLiteral lit with
    | some v => ParseInt lit = (v, none)
    | none => (ParseInt lit).1 = 0 := by
  unfold intLiteral ParseInt
  cases hl : lit.toList with
  | nil => simp
  | cons c cs =>
    simp only
    by_cases hneg : c = '-'
    · simp only [hneg, if_true]
      have hs := parseIntLoop_spec cs 0 (by omega)
      cases hv : digitsValue cs 0 with
      | none =>
        rw [hv] at hs
        simp only
        rcases hs with hs | hs <;> rw [hs]
      | some v =>
        rw [hv] at hs
        simp only
        by_cases hlt : v < 18446744073709551616
        · simp only [hlt, if_true] at hs
          rw [hs]
          simp only
          by_cases h63 : v ≤ 9223372036854775808
          · rw [if_pos h63]
            simp only
            by_cases h62 : v > 9223372036854775807
            · have hv63 : v = 9223372036854775808 := by omega
              subst hv63
              simp
            · rw [if_neg h62]
          · rw [if_neg h63]
            simp only
            have h62 : v > 9223372036854775807 := by omega
            have hne : ¬ v = 9223372036854775808 := by omega
            simp [h62, hne]
        · simp only [hlt, if_false] at hs
          rw [hs]
          have h63 : ¬ v ≤ 9223372036854775808 := by omega
          simp [h63]
    · simp only [hneg, if_false]
      have hs := parseIntLoop_spec (c :: cs) 0 (by omega)
      cases hv : digitsValue (c :: cs) 0 with
      | none =>
        rw [hv] at hs
        simp only
        rcases hs with hs | hs <;> rw [hs]
      | some v =>
        rw [hv] at hs
        simp only
        by_cases hlt : v < 18446744073709551616
        · simp only [hlt, if_true] at hs
          rw [hs]
          simp only
          by_cases h63 : v ≤ 9223372036854775807
          · have h62 : ¬ v > 9223372036854775807 := by omega
            rw [if_pos h63, if_neg h62]
          · rw [if_neg h63]
            have h62 : v > 9223372036854775807 := by omega
            simp [h62]
        · simp only [hlt, if_false] at hs
          rw [hs]
          have h63 : ¬ v ≤ 9223372036854775807 := by omega
          simp [h63]

/-! ## The `jsonparser` reads against the reference readings -/

theorem toUint64_zero : toUint64 0 = 0 := by decide

theorem getInt_lookup (v : JSON) (key : String) :
    toUint64 (GetInt (some v) [key]).1 = specUint (lookupKey v key) := by
  unfold GetInt Get
  simp only [searchKeys]
  cases hl : lookupKey v key with
  | none => simp [searchKeys, specUint, toUint64_zero]
  | some w =>
    cases w with
    | number lit =>
      simp only [searchKeys, specUint]
      have hs := parseInt_spec lit
      cases hi : intLiteral lit with
      | none => rw [hi] at hs; simp only at hs ⊢; rw [hs, toUint64_zero]
      | some n => rw [hi] at hs; simp only at hs ⊢; rw [hs]
    | null => simp [searchKeys, specUint, toUint64_zero]
    | bool b => simp [searchKeys, specUint, toUint64_zero]
    | string s scan => simp [searchKeys, specUint, toUint64_zero]
    | array xs => simp [searchKeys, specUint, toUint64_zero]
    | object ms => simp [searchKeys, specUint, toUint64_zero]

theorem getFloat_lookup (fp : Float64Ops) (v : JSON) (key : String) :
    (GetFloat fp (some v) [key]).1 = specFloat fp (lookupKey v key) := by
  unfold GetFloat Get
  simp only [searchKeys]
  cases hl : lookupKey v key with
  | none => simp [searchKeys, specFloat]
  | some w =>
    cases w with
    | number lit =>
      simp only [searchKeys, specFloat, jsonParseFloat]
      cases hp : fp.ParseFloat lit with
      | mk x e => cases e <;> rfl
    | null => simp [searchKeys, specFloat]
    | bool b => simp [searchKeys, specFloat]
    | string s scan => simp [searchKeys, specFloat]
    | array xs => simp [searchKeys, specFloat]
    | object ms => simp [searchKeys, specFloat]

theorem getString_lookup (v : JSON) (key : String) :
    (GetString (some v) [key]).1 = specText (lookupKey v key) := by
  unfold GetString Get
  simp only [searchKeys]
  cases hl : lookupKey v key with
  | none => simp [searchKeys, specText]
  | some w => cases w <;> simp [searchKeys, specText]

theorem lookupKey_index (e : JSON) (i : Nat) (key : String)
    (hk : arrayIndex key = some i) (hn : key = "[" ++ Nat.repr i ++ "]") :
    lookupKey e key = position e i := by
  subst hn
  cases e <;> simp [lookupKey, position, hk]

theorem klineOf_eq (fp : Float64Ops) (e : JSON) : klineOf fp e = specKline fp e := by
  have h0 := lookupKey_index e 0 "[0]" (by decide) (by decide)
  have h1 := lookupKey_index e 1 "[1]" (by decide) (by decide)
  have h2 := lookupKey_index e 2 "[2]" (by decide) (by decide)
  have h3 := lookupKey_index e 3 "[3]" (by decide) (by decide)
  have h4 := lookupKey_index e 4 "[4]" (by decide) (by decide)
  have h5 := lookupKey_index e 5 "[5]" (by decide) (by decide)
  simp only [klineOf, specKline, getInt_lookup, getFloat_lookup, h0, h1, h2, h3, h4, h5]

theorem lookupKey_eq_member (v : JSON) (k : String) (h : arrayIndex k = none) :
    lookupKey v k = member v k := by
  cases v <;> simp [lookupKey, member, h]

theorem tradeOf_eq (fp : Float64Ops) (e : JSON) : tradeOf fp e = specTrade fp e := by
  have h1 := lookupKey_eq_member e "tid" (by decide)
  have h2 := lookupKey_eq_member e "type" (by decide)
  have h3 := lookupKey_eq_member e "amount" (by decide)
  have h4 := lookupKey_eq_member e "price" (by decide)
  have h5 := lookupKey_eq_member e "date" (by decide)
  simp only [tradeOf, specTrade, getInt_lookup, getString_lookup, h1, h2, h3, h4, h5]

theorem foldl_klinesCallback (fp : Float64Ops) (xs : List JSON) (acc : List (Kline fp.F)) :
    xs.foldl (klinesCallback fp) acc = acc ++ xs.map (klineOf fp) := by
  induction xs generalizing acc with
  | nil => simp
  | cons x xs ih => simp [List.foldl, ih, klinesCallback]

theorem foldl_tradesCallback (fp : Float64Ops) (xs : List JSON) (acc : List (Trade fp.F)) :
    xs.foldl (tradesCallback fp) acc = acc ++ xs.map (tradeOf fp) := by
  induction xs generalizing acc with
  | nil => simp
  | cons x xs ih => simp [List.foldl, ih, tradesCallback]

/-- C6, refuted as stated: position 0 of the one element holds the number
`9223372036854775808`, an unsigned 64-bit integer, yet the candle returned has
`Time = 0`, not that number. -/
theorem kline_time_above_int64_is_zero :
    uintLiteral "9223372036854775808" = some 9223372036854775808 ∧
    GetKlines decimalFloat (okClient (some bigTimeKlineBody)) (ascii "btcusdt") (ascii "1min") 0 10
      = (some [{ Time := 0, Open := { mant := 100, scale := 0 },
                 High := { mant := 110, scale := 0 }, Low := { mant := 90, scale := 0 },
                 Close := { mant := 105, scale := 0 }, Volume := { mant := 500, scale := 0 } }],
         none) ∧
    (0 : Nat) ≠ 9223372036854775808 := by
  decide

/-- C6, amended: for every kline body whose `data` member is an array `xs`,
`GetKlines` returns a nil error and exactly one candle per element, in array
order (so the empty array gives the empty sequence).  The candle of an element
has `Time` read at position 0 through `int64` (`specUint`: an integer literal
inside `int64`, modulo `2^64`; zero when missing, not a number, not an integer
literal or outside `int64`) and `Open`, `High`, `Low`, `Close`, `Volume` read at
positions 1, 2, 3, 4, 5 (`specFloat`: the float parse of a number literal; zero
when missing, not a number or rejected by the parser), where position `j` of an
element is its `j`-th item when it is an array, the `j`-th item found in its
text when it is a string, its member named `[j]` when it is an object, and
missing otherwise. -/
theorem getKlines_decodes_every_element (fp : Float64Ops) (client : Client)
    (symbol period : GoString) (since size : Nat) (resp : Response) (doc : JSON) (xs : List JSON)
    (hget : doGet client (klinesURL symbol period since size) = (resp, none))
    (hbody : resp.body = some doc) (hdata : lookupKey doc "data" = some (JSON.array xs)) :
    GetKlines fp client symbol period since size = (some (xs.map (specKline fp)), none) ∧
    (xs.map (specKline fp)).length = xs.length ∧
    (xs = [] → xs.map (specKline fp) = []) := by
  refine ⟨?_, by simp, ?_⟩
  · unfold GetKlines
    rw [hget]
    simp only [ArrayEach, hbody, searchKeys, hdata, foldl_klinesCallback, List.nil_append]
    congr 2
    exact List.map_congr_left (fun e _ => klineOf_eq fp e)
  · intro h
    simp [h]

/-- C6 amended, at the kline body of the specification: one element gives the one
candle `{Time 1700000000, Open 100, High 110, Low 90, Close 105, Volume 500}`. -/
theorem getKlines_decodes_every_element_witness :
    GetKlines decimalFloat (okClient (some klineBody)) (ascii "btcusdt") (ascii "1min") 0 10
      = (some [{ Time := 1700000000, Open := { mant := 100, scale := 0 },
                 High := { mant := 110, scale := 0 }, Low := { mant := 90, scale := 0 },
                 Close := { mant := 105, scale := 0 }, Volume := { mant := 500, scale := 0 } }],
         none) :=
  (getKlines_decodes_every_element decimalFloat (okClient (some klineBody)) (ascii "btcusdt")
      (ascii "1min") 0 10 { body := some klineBody } klineBody _ rfl rfl rfl).1.trans (by decide)

theorem getKlines_odd_elements_example :
    GetKlines decimalFloat (okClient (some oddKlineBody)) (ascii "btcusdt") (ascii "1min") 0 10
      = (some [{ Time := 1, Open := { mant := 2, scale := 0 }, High := { mant := 3, scale := 0 },
                 Low := { mant := 4, scale := 0 }, Close := { mant := 5, scale := 0 },
                 Volume := { mant := 6, scale := 0 } },
               { Time := 7, Open := { mant := 8, scale := 0 }, High := { mant := 0, scale := 0 },
                 Low := { mant := 0, scale := 0 }, Close := { mant := 0, scale := 0 },
                 Volume := { mant := 0, scale := 0 } },
               { Time := 0, Open := { mant := 0, scale := 0 }, High := { mant := 0, scale := 0 },
                 Low := { mant := 0, scale := 0 }, Close := { mant := 0, scale := 0 },
                 Volume := { mant := 0, scale := 0 } }], none) := by
  decide

/-- C7, refuted as stated: the one trade has `tid` `9223372036854775808` and
`date` `18446744073709551615`, both unsigned 64-bit integers, yet the trade
returned has `TradeId = 0` and `Time = 0`. -/
theorem trade_id_above_int64_is_zero :
    uintLiteral "9223372036854775808" = some 9223372036854775808 ∧
    uintLiteral "18446744073709551615" = some 18446744073709551615 ∧
    GetTrades decimalFloat (okClient (some bigIdTradesBody)) (ascii "btcusdt") 0
      = (some [{ TradeId := 0, TradeType := "buy", Amount := { mant := 5, scale := 1 },
                 Price := { mant := 50000, scale := 0 }, Time := 0 }], none) := by
  decide

/-- C7, amended: for every trades body that is a JSON array `xs`, `GetTrades`
returns a nil error and exactly one trade per element, in array order.  The
trade of an element has `TradeType` the text of its `type` string, `Amount` the
float parse of the text of its `amount` string and `Price` the float parse of
the text of its `price` string (a member that is missing or not a string reads
as the empty text), and `TradeId` and `Time` read from `tid` and `date` through
`int64` (`specUint`: an integer literal inside `int64`, modulo `2^64`; zero when
missing, not a number, not an integer literal or outside `int64`). -/
theorem getTrades_preserves_order (fp : Float64Ops) (client : Client)
    (symbol : GoString) (since : Nat) (resp : Response) (xs : List JSON)
    (hget : doGet client (tradesURL symbol since) = (resp, none))
    (hbody : resp.body = some (JSON.array xs)) :
    GetTrades fp client symbol since = (some (xs.map (specTrade fp)), none) ∧
    (xs.map (specTrade fp)).length = xs.length := by
  refine ⟨?_, by simp⟩
  unfold GetTrades
  rw [hget]
  simp only [ArrayEach, hbody, searchKeys, foldl_tradesCallback, List.nil_append]
  congr 2
  exact List.map_congr_left (fun e _ => tradeOf_eq fp e)

/-- C7 amended, at the trades body of the specification: the one object gives the
trade `{TradeId 1, TradeType "buy", Amount 0.5, Price 50000, Time 1700000000}`. -/
theorem getTrades_preserves_order_witness :
    GetTrades decimalFloat (okClient (some tradesBody)) (ascii "btcusdt") 0
      = (some [{ TradeId := 1, TradeType := "buy", Amount := { mant := 5, scale := 1 },
                 Price := { mant := 50000, scale := 0 }, Time := 1700000000 }], none) :=
  (getTrades_preserves_order decimalFloat (okClient (some tradesBody)) (ascii "btcusdt") 0
      { body := some tradesBody } _ rfl rfl).1.trans (by decide)

/-! ## Quotes -/

theorem get_one (body : Option JSON) (k : String) (h : arrayIndex k = none) :
    (Get body [k]).1 = body.bind (fun d => member d k) := by
  cases body with
  | none => rfl
  | some d =>
    simp only [Get, searchKeys, lookupKey_eq_member d k h, Option.bind]
    cases member d k <;> rfl

theorem getString_opt (data : Option JSON) (k : String) (h : arrayIndex k = none) :
    (GetString data [k]).1 = specText (data.bind (fun d => member d k)) := by
  cases data with
  | none => rfl
  | some d =>
    rw [getString_lookup, lookupKey_eq_member d k h]
    rfl

theorem quoteFloat_eq (fp : Float64Ops) (v : Option JSON) :
    (fp.ParseFloat (specText v)).1 = specQuoteFloat fp v := by
  unfold specText specQuoteFloat
  split
  · rename_i s scan
    cases hp : fp.ParseFloat s with
    | mk x e =>
      cases e with
      | none => rfl
      | some e =>
        cases e with
        | ErrSyntax =>
          have := fp.malformed_zero s (by rw [hp])
          rw [hp] at this
          simpa using this
        | ErrRange => rfl
  · exact parseFloat_empty fp

theorem parseUint_error_of_not_literal {s : String} (h : uintLiteral s = none) :
    (ParseUint s).2 ≠ none := by
  unfold uintLiteral at h
  unfold ParseUint
  by_cases he : s.toList = []
  · rw [if_pos he]
    simp
  · rw [if_neg he] at h ⊢
    have hs := parseUintLoop_spec s.toList 0 (by omega)
    cases hv : digitsValue s.toList 0 with
    | none =>
      rw [hv] at hs
      rcases hs with hs | hs <;> rw [hs] <;> simp
    | some v =>
      rw [hv] at h hs
      by_cases hlt : v < 18446744073709551616
      · simp [hlt] at h
      · simp only [hlt, if_false] at hs
        rw [hs]
        simp

theorem quoteTime_eq (v : Option JSON) : (ParseUint (specText v)).1 = specQuoteTime v := by
  unfold specText specQuoteTime
  split
  · rename_i s scan
    cases hu : uintLiteral s with
    | some n => rw [parseUint_of_uintLiteral hu]
    | none =>
      have hne := parseUint_error_of_not_literal hu
      have he := parseUint_error_value s
      cases hp : ParseUint s with
      | mk n e =>
        rw [hp] at he hne
        cases e with
        | none => exact absurd rfl hne
        | some e =>
          cases e with
          | ErrSyntax => simpa using he.1
          | ErrRange => simpa using he.2
  · decide

theorem getLatestQuote_eq (fp : Float64Ops) (client : Client) (symbol : GoString) (resp : Response)
    (hget : doGet client (quoteURL symbol) = (resp, none)) :
    GetLatestQuote fp client symbol
      = (some { Volume := specQuoteFloat fp (tickerMember resp.body "vol"),
                Last := specQuoteFloat fp (tickerMember resp.body "last"),
                Sell := specQuoteFloat fp (tickerMember resp.body "sell"),
                Buy := specQuoteFloat fp (tickerMember resp.body "buy"),
                High := specQuoteFloat fp (tickerMember resp.body "high"),
                Low := specQuoteFloat fp (tickerMember resp.body "low"),
                Time := specQuoteTime (bodyMember resp.body "date") }, none) := by
  unfold GetLatestQuote
  rw [hget]
  simp only [get_one resp.body "ticker" (by decide),
    getString_opt _ "vol" (by decide), getString_opt _ "last" (by decide),
    getString_opt _ "sell" (by decide), getString_opt _ "buy" (by decide),
    getString_opt _ "high" (by decide), getString_opt _ "low" (by decide),
    getString_opt _ "date" (by decide), quoteFloat_eq, quoteTime_eq]
  rfl

/-- C5, refuted as stated: the `date` string `18446744073709551616` is not an
unsigned 64-bit decimal integer, yet the quote returned for it has
`Time = 18446744073709551615`, not zero. -/
theorem quote_time_overflow_not_zero :
    uintLiteral "18446744073709551616" = none ∧
    (GetLatestQuote decimalFloat (okClient (some overflowDateBody)) (ascii "btcusdt")).1.map
        (fun q => q.Time) = some 18446744073709551615 ∧
    (18446744073709551615 : Nat) ≠ 0 := by
  decide

/-- C5, amended: for every ticker body, each of the six float fields of the
quote is zero when its key is missing, its value is not a JSON string or the
parser reports a syntax error for its text, and holds what the parser returns
otherwise (with a range error that is the value returned with the error); `Time`
is the parsed integer of `date`, `2^64 - 1` when the parser reports a range
error, and zero when `date` is missing, not a JSON string or a syntax error. -/
theorem getLatestQuote_zero_fill (fp : Float64Ops) (client : Client) (symbol : GoString)
    (resp : Response) (hget : doGet client (quoteURL symbol) = (resp, none)) :
    GetLatestQuote fp client symbol
      = (some { Volume := specQuoteFloat fp (tickerMember resp.body "vol"),
                Last := specQuoteFloat fp (tickerMember resp.body "last"),
                Sell := specQuoteFloat fp (tickerMember resp.body "sell"),
                Buy := specQuoteFloat fp (tickerMember resp.body "buy"),
                High := specQuoteFloat fp (tickerMember resp.body "high"),
                Low := specQuoteFloat fp (tickerMember resp.body "low"),
                Time := specQuoteTime (bodyMember resp.body "date") }, none) :=
  getLatestQuote_eq fp client symbol resp hget

/-- C5 amended, at the ticker body whose `date` overflows: the six prices are
parsed and `Time` is `2^64 - 1`. -/
theorem getLatestQuote_zero_fill_witness :
    GetLatestQuote decimalFloat (okClient (some overflowDateBody)) (ascii "btcusdt")
      = (some { Volume := { mant := 1005, scale := 1 }, Last := { mant := 500001, scale := 1 },
                Sell := { mant := 50001, scale := 0 }, Buy := { mant := 49999, scale := 0 },
                High := { mant := 51000, scale := 0 }, Low := { mant := 49000, scale := 0 },
                Time := 18446744073709551615 }, none) :=
  (getLatestQuote_zero_fill decimalFloat (okClient (some overflowDateBody)) (ascii "btcusdt")
    { body := some overflowDateBody } rfl).trans (by decide)

theorem specQuoteFloat_string (fp : Float64Ops) (s : String) (scan : List JSON) :
    specQuoteFloat fp (some (JSON.string s scan)) = (fp.ParseFloat s).1 :=
  (quoteFloat_eq fp (some (JSON.string s scan))).symm

/-- C4: for every ticker body that is an object with a `ticker` object whose
`vol`, `last`, `sell`, `buy`, `high`, `low` are JSON strings and a `date` string
holding an unsigned 64-bit decimal integer `n`, `GetLatestQuote` returns a nil
error and the quote whose `Volume`, `Last`, `Sell`, `Buy`, `High`, `Low` are the
float parses of those strings, each from its own key, and whose `Time` is `n`. -/
theorem getLatestQuote_decodes_ticker (fp : Float64Ops) (client : Client) (symbol : GoString)
    (resp : Response) (doc ticker : JSON) (vol last sell buy high low date : String)
    (svol slast ssell sbuy shigh slow sdate : List JSON) (n : Nat)
    (hget : doGet client (quoteURL symbol) = (resp, none))
    (hbody : resp.body = some doc)
    (hticker : member doc "ticker" = some ticker)
    (hvol : member ticker "vol" = some (JSON.string vol svol))
    (hlast : member ticker "last" = some (JSON.string last slast))
    (hsell : member ticker "sell" = some (JSON.string sell ssell))
    (hbuy : member ticker "buy" = some (JSON.string buy sbuy))
    (hhigh : member ticker "high" = some (JSON.string high shigh))
    (hlow : member ticker "low" = some (JSON.string low slow))
    (hdate : member doc "date" = some (JSON.string date sdate))
    (hn : uintLiteral date = some n) :
    GetLatestQuote fp client symbol
      = (some { Volume := (fp.ParseFloat vol).1, Last := (fp.ParseFloat last).1,
                Sell := (fp.ParseFloat sell).1, Buy := (fp.ParseFloat buy).1,
                High := (fp.ParseFloat high).1, Low := (fp.ParseFloat low).1,
                Time := n }, none) := by
  rw [getLatestQuote_eq fp client symbol resp hget]
  have ht : ∀ k w, member ticker k = some w → tickerMember resp.body k = some w := by
    intro k w hk
    simp [tickerMember, hbody, hticker, hk]
  have hd : bodyMember resp.body "date" = some (JSON.string date sdate) := by
    simp [bodyMember, hbody, hdate]
  rw [ht _ _ hvol, ht _ _ hlast, ht _ _ hsell, ht _ _ hbuy, ht _ _ hhigh, ht _ _ hlow, hd]
  simp only [specQuoteFloat_string]
  simp only [specQuoteTime, hn]

/-- C4 at the ticker body of the specification: the quote is
`{100.5, 50000.1, 50001, 49999, 51000, 49000, 1700000000000}`. -/
theorem getLatestQuote_decodes_ticker_witness :
    uintLiteral "1700000000000" = some 1700000000000 ∧
    GetLatestQuote decimalFloat (okClient (some tickerBody)) (ascii "btcusdt")
      = (some { Volume := { mant := 1005, scale := 1 }, Last := { mant := 500001, scale := 1 },
                Sell := { mant := 50001, scale := 0 }, Buy := { mant := 49999, scale := 0 },
                High := { mant := 51000, scale := 0 }, Low := { mant := 49000, scale := 0 },
                Time := 1700000000000 }, none) :=
  ⟨by decide,
   (getLatestQuote_decodes_ticker decimalFloat (okClient (some tickerBody)) (ascii "btcusdt")
      { body := some tickerBody } tickerBody
      (JSON.object [("vol", JSON.string "100.5" []), ("last", JSON.string "50000.1" []),
        ("sell", JSON.string "50001" []), ("buy", JSON.string "49999" []), ("high", JSON.string "51000" []),
        ("low", JSON.string "49000" [])])
      "100.5" "50000.1" "50001" "49999" "51000" "49000" "1700000000000" [] [] [] [] [] [] []
      1700000000000
      rfl rfl rfl rfl rfl rfl rfl rfl rfl rfl (by decide)).trans (by decide)⟩

/-! ## Integer narrowing -/

theorem mapGet_mapSet {V : Type} (m : GoMap V) (k : String) (v : V) :
    mapGet (mapSet m k v) k = some v := by
  induction m with
  | nil => simp [mapSet, mapGet]
  | cons e rest ih =>
    obtain ⟨k1, v1⟩ := e
    unfold mapSet
    by_cases h : k1 = k
    · simp [h, mapGet]
    · rw [if_neg h]
      unfold mapGet at ih ⊢
      simp only [List.find?, h, decide_False]
      exact ih

/-- C10: integer narrowing wraps, field by field.  A scale (`amountScale` or
`priceScale`, each on its own) decoded as the `int64` `a` is stored as
`a mod 256`, which is `a` exactly when `0 <= a <= 255`; a kline time, a trade
`tid`, a trade `date` or a depth `timestamp` (each on its own) decoded as the
`int64` `v` is stored as `v mod 2^64`, which for a negative `v` is `2^64 + v`. -/
theorem integer_narrowing_wraps (fp : Float64Ops) :
    (∀ (configs : GoMap SymbolConfig) (key : String) (value : JSON) (a : Int),
        GetInt (some value) ["amountScale"] = (a, none) →
        ∃ c, mapGet (symbolsCallback configs key value).1 (ParseString key).1 = some c ∧
          c.AmountScale = (a % 256).toNat) ∧
    (∀ (configs : GoMap SymbolConfig) (key : String) (value : JSON) (p : Int),
        GetInt (some value) ["priceScale"] = (p, none) →
        ∃ c, mapGet (symbolsCallback configs key value).1 (ParseString key).1 = some c ∧
          c.PriceScale = (p % 256).toNat) ∧
    (∀ (value : JSON) (v : Int), GetInt (some value) ["[0]"] = (v, none) →
        (klineOf fp value).Time = (v % 18446744073709551616).toNat) ∧
    (∀ (value : JSON) (t : Int), GetInt (some value) ["tid"] = (t, none) →
        (tradeOf fp value).TradeId = (t % 18446744073709551616).toNat) ∧
    (∀ (value : JSON) (d : Int), GetInt (some value) ["date"] = (d, none) →
        (tradeOf fp value).Time = (d % 18446744073709551616).toNat) ∧
    (∀ (client : Client) (symbol : GoString) (size : Nat) (resp : Response) (v : Int),
        doGet client (depthURL symbol size) = (resp, none) →
        GetInt resp.body ["timestamp"] = (v, none) →
        (GetDepth fp client symbol size).1.map (fun d => d.Time)
          = some (v % 18446744073709551616).toNat) ∧
    (∀ a : Int, ((toByte a : Nat) : Int) = a ↔ 0 ≤ a ∧ a ≤ 255) ∧
    (∀ v : Int, -9223372036854775808 ≤ v → v < 0 →
        ((toUint64 v : Nat) : Int) = 18446744073709551616 + v) := by
  refine ⟨?_, ?_, ?_, ?_, ?_, ?_, ?_, ?_⟩
  · intro configs key value a ha
    refine ⟨{ AmountScale := toByte (GetInt (some value) ["amountScale"]).1,
              PriceScale := toByte (GetInt (some value) ["priceScale"]).1 }, ?_, ?_⟩
    · simp only [symbolsCallback]
      exact mapGet_mapSet _ _ _
    · simp only [ha, toByte]
  · intro configs key value p hp
    refine ⟨{ AmountScale := toByte (GetInt (some value) ["amountScale"]).1,
              PriceScale := toByte (GetInt (some value) ["priceScale"]).1 }, ?_, ?_⟩
    · simp only [symbolsCallback]
      exact mapGet_mapSet _ _ _
    · simp only [hp, toByte]
  · intro value v hv
    simp only [klineOf, hv, toUint64]
  · intro value t ht
    simp only [tradeOf, ht, toUint64]
  · intro value d hd
    simp only [tradeOf, hd, toUint64]
  · intro client symbol size resp v hget hv
    unfold GetDepth
    rw [hget]
    simp only [hv, toUint64, Option.map]
  · intro a
    unfold toByte
    omega
  · intro v h1 h2
    unfold toUint64
    omega

/-- C10 at concrete values, one field at a time: `amountScale` `-1` is stored as
255 although the entry has no `priceScale`; `priceScale` `258` is stored as 2
although the entry has no `amountScale`; the kline time `-1` is stored as
`2^64 - 1`; the trade `tid` `-2` is stored as `2^64 - 2` although the trade has
no `date`; the trade `date` `-2^63` is stored as `2^63` although the trade has no
`tid`; the depth `timestamp` `-1` is stored as `2^64 - 1`. -/
theorem integer_narrowing_wraps_witness :
    (∃ c, mapGet (symbolsCallback [] "btcusdt"
          (JSON.object [("amountScale", JSON.number "-1")])).1 (ParseString "btcusdt").1 = some c ∧
        c.AmountScale = 255) ∧
    (∃ c, mapGet (symbolsCallback [] "btcusdt"
          (JSON.object [("priceScale", JSON.number "258")])).1 (ParseString "btcusdt").1 = some c ∧
        c.PriceScale = 2) ∧
    (klineOf decimalFloat wrapKline).Time = 18446744073709551615 ∧
    (tradeOf decimalFloat (JSON.object [("tid", JSON.number "-2")])).TradeId
      = 18446744073709551614 ∧
    (tradeOf decimalFloat (JSON.object [("date", JSON.number "-9223372036854775808")])).Time
      = 9223372036854775808 ∧
    (GetDepth decimalFloat (okClient (some wrapDepthBody)) (ascii "btcusdt") 5).1.map
        (fun d => d.Time) = some 18446744073709551615 :=
  have h := integer_narrowing_wraps decimalFloat
  ⟨(h.1 [] "btcusdt" (JSON.object [("amountScale", JSON.number "-1")]) (-1) (by decide)).imp
      (fun _ hc => ⟨hc.1, hc.2.trans (by decide)⟩),
   (h.2.1 [] "btcusdt" (JSON.object [("priceScale", JSON.number "258")]) 258 (by decide)).imp
      (fun _ hc => ⟨hc.1, hc.2.trans (by decide)⟩),
   (h.2.2.1 wrapKline (-1) (by decide)).trans (by decide),
   (h.2.2.2.1 (JSON.object [("tid", JSON.number "-2")]) (-2) (by decide)).trans (by decide),
   (h.2.2.2.2.1 (JSON.object [("date", JSON.number "-9223372036854775808")])
      (-9223372036854775808) (by decide)).trans (by decide),
   (h.2.2.2.2.2.1 (okClient (some wrapDepthBody)) (ascii "btcusdt") 5
      { body := some wrapDepthBody } (-1) rfl (by decide)).trans (by decide)⟩

/-! ## Symbols -/

/-- C8, the code at a markets body with the two distinct keys `x\ty` (with a
backslash) and `x`, tab, `y`: `GetSymbols` unescapes the already unescaped key
once more, so both keys land on `x`, tab, `y` and the map has one entry, not two,
and no entry under the key with the backslash. -/
theorem getSymbols_unescapes_key_twice :
    ("x\\ty" : String) ≠ "x\ty" ∧
    GetSymbols (okClient (some backslashMarketsBody))
      = (some [("x\ty", { AmountScale := 4, PriceScale := 5 })], none) := by
  decide

/-! ## The request address of `GetKlines` -/

theorem klinesURL_eq (symbol period : GoString) (since size : Nat) :
    klinesURL symbol period since size
      = DataApiUrl ++ ascii "kline?" ++ klinesQuery symbol period since size := by
  rfl

set_option maxRecDepth 100000 in
theorem hex_roundtrip : ∀ c : Byte,
    ishex (upperhex (c.val / 16)) = true ∧ ishex (upperhex (c.val % 16)) = true ∧
    (Fin.ofNat (unhex (upperhex (c.val / 16)) * 16 + unhex (upperhex (c.val % 16))) : Byte) = c := by
  decide

set_option maxRecDepth 100000 in
theorem escapeByte_all_safe : ∀ c : Byte,
    (escapeByte c).all (fun b => b.val ≠ 38 ∧ b.val ≠ 59 ∧ b.val ≠ 61) = true := by
  decide

set_option maxRecDepth 100000 in
theorem unescaped_plain : ∀ c : Byte, shouldEscape c = false → c.val ≠ 37 ∧ c.val ≠ 43 := by
  decide

theorem queryEscape_safe (s : GoString) :
    ∀ b ∈ QueryEscape s, b.val ≠ 38 ∧ b.val ≠ 59 ∧ b.val ≠ 61 := by
  intro b hb
  simp only [QueryEscape, List.mem_flatMap] at hb
  obtain ⟨c, _, hbc⟩ := hb
  have h := escapeByte_all_safe c
  rw [List.all_eq_true] at h
  simpa using h b hbc

theorem queryUnescapeLoop_zero (c : Byte) (rest : GoString) :
    queryUnescapeLoop (c :: rest) 0 =
      if c.val = 37 then
        match rest.take 2 with
        | [a, b] =>
          if ishex a ∧ ishex b then
            (queryUnescapeLoop rest 2).map (fun out => Fin.ofNat (unhex a * 16 + unhex b) :: out)
          else none
        | _ => none
      else if c.val = 43 then (queryUnescapeLoop rest 0).map (fun out => (32 : Byte) :: out)
      else (queryUnescapeLoop rest 0).map (fun out => c :: out) := rfl

theorem queryUnescape_escapeByte (c : Byte) (rest : GoString) :
    queryUnescapeLoop (escapeByte c ++ rest) 0
      = (queryUnescapeLoop rest 0).map (fun out => c :: out) := by
  unfold escapeByte
  by_cases h32 : c.val = 32
  · have hc : c = (32 : Byte) := Fin.ext h32
    rw [if_pos h32, hc]
    show queryUnescapeLoop ((43 : Byte) :: rest) 0 = _
    rw [queryUnescapeLoop_zero, if_neg (by decide), if_pos (by decide)]
  · rw [if_neg h32]
    by_cases hs : shouldEscape c = true
    · rw [if_pos hs]
      obtain ⟨h1, h2, h3⟩ := hex_roundtrip c
      show queryUnescapeLoop ((37 : Byte) :: upperhex (c.val / 16) :: upperhex (c.val % 16) :: rest) 0
        = _
      rw [queryUnescapeLoop_zero, if_pos (by decide)]
      have e : queryUnescapeLoop (upperhex (c.val / 16) :: upperhex (c.val % 16) :: rest) 2
          = queryUnescapeLoop rest 0 := rfl
      simp only [List.take, h1, h2, and_self, if_true, e, h3]
    · rw [if_neg hs]
      have hp := unescaped_plain c (by simpa using hs)
      show queryUnescapeLoop (c :: rest) 0 = _
      rw [queryUnescapeLoop_zero, if_neg hp.1, if_neg hp.2]

theorem queryUnescape_queryEscape (s : GoString) : QueryUnescape (QueryEscape s) = some s := by
  unfold QueryUnescape
  induction s with
  | nil => rfl
  | cons c s ih =>
    have : QueryEscape (c :: s) = escapeByte c ++ QueryEscape s := by
      simp [QueryEscape]
    rw [this, queryUnescape_escapeByte, ih]
    rfl

theorem cut_append (sep : Byte) (a b : GoString) (h : sep ∉ a) :
    cut sep (a ++ sep :: b) = (a, b) := by
  induction a with
  | nil => simp [cut]
  | cons x a ih =>
    have hx : x ≠ sep := fun e => h (by simp [e])
    have ha : sep ∉ a := fun e => h (by simp [e])
    simp [cut, hx, ih ha]

theorem splitSep_single (sep : Byte) (a : GoString) (h : sep ∉ a) : splitSep sep a = [a] := by
  induction a with
  | nil => rfl
  | cons x a ih =>
    have hx : x ≠ sep := fun e => h (by simp [e])
    have ha : sep ∉ a := fun e => h (by simp [e])
    simp [splitSep, hx, ih ha]

theorem splitSep_append (sep : Byte) (a b : GoString) (h : sep ∉ a) :
    splitSep sep (a ++ sep :: b) = a :: splitSep sep b := by
  induction a with
  | nil => simp [splitSep]
  | cons x a ih =>
    have hx : x ≠ sep := fun e => h (by simp [e])
    have ha : sep ∉ a := fun e => h (by simp [e])
    simp [splitSep, hx, ih ha]

theorem splitSep_joinWith (sep : Byte) (segs : List GoString) (hne : segs ≠ [])
    (h : ∀ s ∈ segs, sep ∉ s) : splitSep sep (joinWith sep segs) = segs := by
  induction segs with
  | nil => exact absurd rfl hne
  | cons x rest ih =>
    cases rest with
    | nil =>
      simp only [joinWith]
      rw [splitSep_single sep x (h x (by simp))]
    | cons y rest =>
      simp only [joinWith]
      rw [splitSep_append sep x _ (h x (by simp))]
      rw [ih (by simp) (fun s hs => h s (by simp [hs]))]

theorem pair_safe (k v : GoString) :
    ∀ b ∈ QueryEscape k ++ (61 : Byte) :: QueryEscape v, b.val ≠ 38 ∧ b.val ≠ 59 := by
  intro b hb
  rw [List.mem_append, List.mem_cons] at hb
  rcases hb with hb | hb | hb
  · exact ⟨(queryEscape_safe k b hb).1, (queryEscape_safe k b hb).2.1⟩
  · subst hb
    decide
  · exact ⟨(queryEscape_safe v b hb).1, (queryEscape_safe v b hb).2.1⟩

theorem parseQueryStep_pair (vals : Values) (k v : GoString) :
    parseQueryStep (vals, none) (QueryEscape k ++ (61 : Byte) :: QueryEscape v)
      = (valuesAdd vals k v, none) := by
  have h59 : ¬ (59 : Byte) ∈ QueryEscape k ++ (61 : Byte) :: QueryEscape v := by
    intro hb
    exact (pair_safe k v _ hb).2 rfl
  have hne : ¬ (QueryEscape k ++ (61 : Byte) :: QueryEscape v = []) := by simp
  have h61 : (61 : Byte) ∉ QueryEscape k := by
    intro hb
    exact (queryEscape_safe k _ hb).2.2 rfl
  unfold parseQueryStep
  rw [if_neg h59, if_neg hne, cut_append 61 _ _ h61]
  simp only [queryUnescape_queryEscape]

/-- C9: for every symbol, period, since and size, the address `GetKlines`
requests is the data base address followed by `kline?` and a query string that
holds exactly the four parameters `market`, `since`, `size`, `type`, each once,
and `url.ParseQuery` of that query string gives back `market` = symbol and
`type` = period byte for byte, and `since` and `size` as the decimal renderings
of the arguments. -/
theorem klinesURL_query_roundtrip (symbol period : GoString) (since size : Nat) :
    klinesURL symbol period since size
      = DataApiUrl ++ ascii "kline?" ++ klinesQuery symbol period since size ∧
    ParseQuery (klinesQuery symbol period since size)
      = ([(ascii "market", [symbol]), (ascii "since", [ascii (Nat.repr since)]),
          (ascii "size", [ascii (Nat.repr size)]), (ascii "type", [period])], none) := by
  refine ⟨rfl, ?_⟩
  have e1 : ascii "market=" ++ QueryEscape symbol
      = QueryEscape (ascii "market") ++ (61 : Byte) :: QueryEscape symbol := rfl
  have e2 : ascii "since=" ++ QueryEscape (FormatUint since)
      = QueryEscape (ascii "since") ++ (61 : Byte) :: QueryEscape (FormatUint since) := rfl
  have e3 : ascii "size=" ++ QueryEscape (FormatUint size)
      = QueryEscape (ascii "size") ++ (61 : Byte) :: QueryEscape (FormatUint size) := rfl
  have e4 : ascii "type=" ++ QueryEscape period
      = QueryEscape (ascii "type") ++ (61 : Byte) :: QueryEscape period := rfl
  unfold klinesQuery ParseQuery
  rw [e1, e2, e3, e4]
  have hq : ¬ (joinWith 38 [QueryEscape (ascii "market") ++ (61 : Byte) :: QueryEscape symbol,
      QueryEscape (ascii "since") ++ (61 : Byte) :: QueryEscape (FormatUint since),
      QueryEscape (ascii "size") ++ (61 : Byte) :: QueryEscape (FormatUint size),
      QueryEscape (ascii "type") ++ (61 : Byte) :: QueryEscape period] = []) := by
    simp [joinWith]
  rw [if_neg hq, splitSep_joinWith 38 _ (by simp)]
  · simp only [List.foldl, parseQueryStep_pair]
    rfl
  · intro s hs hb
    simp only [List.mem_cons, List.mem_singleton, List.not_mem_nil, or_false] at hs
    rcases hs with hs | hs | hs | hs <;> subst hs <;> exact (pair_safe _ _ _ hb).1 rfl

/-! ## Symbols with plain keys -/

theorem unescapeLoop_plain : ∀ cs : List Char, '\\' ∉ cs → unescapeLoop cs 0 = some cs := by
  intro cs
  induction cs with
  | nil => intro _; rfl
  | cons c cs ih =>
    intro h
    have hc : c ≠ '\\' := fun e => h (by simp [e])
    have hcs : '\\' ∉ cs := fun e => h (by simp [e])
    simp [unescapeLoop, hc, ih hcs]

theorem parseString_plain (s : String) (h : '\\' ∉ s.toList) : ParseString s = (s, none) := by
  unfold ParseString Unescape
  rw [unescapeLoop_plain _ h]
  rfl

theorem getInt_byte_lookup (v : JSON) (key : String) :
    toByte (GetInt (some v) [key]).1 = specByte (lookupKey v key) := by
  have h0 : toByte 0 = 0 := by decide
  unfold GetInt Get
  simp only [searchKeys]
  cases hl : lookupKey v key with
  | none => simp [searchKeys, specByte, h0]
  | some w =>
    cases w with
    | number lit =>
      simp only [searchKeys, specByte]
      have hs := parseInt_spec lit
      cases hi : intLiteral lit with
      | none => rw [hi] at hs; simp only at hs ⊢; rw [hs, h0]
      | some n => rw [hi] at hs; simp only at hs ⊢; rw [hs]
    | null => simp [searchKeys, specByte, h0]
    | bool b => simp [searchKeys, specByte, h0]
    | string s scan => simp [searchKeys, specByte, h0]
    | array xs => simp [searchKeys, specByte, h0]
    | object ms => simp [searchKeys, specByte, h0]

theorem symbolsCallback_plain (configs : GoMap SymbolConfig) (key : String) (value : JSON)
    (h : '\\' ∉ key.toList) :
    symbolsCallback configs key value = (mapSet configs key (specConfig value), none) := by
  have ha : lookupKey value "amountScale" = member value "amountScale" :=
    lookupKey_eq_member _ _ (by decide)
  have hp : lookupKey value "priceScale" = member value "priceScale" :=
    lookupKey_eq_member _ _ (by decide)
  simp only [symbolsCallback, parseString_plain key h, getInt_byte_lookup, ha, hp, specConfig]

theorem mapSet_fresh {V : Type} (m : GoMap V) (k : String) (v : V) (h : k ∉ m.map Prod.fst) :
    mapSet m k v = m ++ [(k, v)] := by
  induction m with
  | nil => rfl
  | cons e rest ih =>
    obtain ⟨k1, v1⟩ := e
    have h1 : k1 ≠ k := fun e => h (by simp [e])
    have h2 : k ∉ rest.map Prod.fst := fun e => h (by simp [e])
    simp [mapSet, h1, ih h2]

theorem objectEachLoop_symbols : ∀ (ms : List (String × JSON)) (acc : GoMap SymbolConfig),
    (∀ m ∈ ms, '\\' ∉ m.1.toList) → (ms.map Prod.fst).Nodup →
    (∀ m ∈ ms, m.1 ∉ acc.map Prod.fst) →
    objectEachLoop symbolsCallback ms acc
      = (acc ++ ms.map (fun m => (m.1, specConfig m.2)), none) := by
  intro ms
  induction ms with
  | nil => intro acc _ _ _; simp [objectEachLoop]
  | cons m ms ih =>
    intro acc hplain hnodup hfresh
    obtain ⟨k, v⟩ := m
    rw [List.map_cons, List.nodup_cons] at hnodup
    unfold objectEachLoop
    rw [symbolsCallback_plain acc k v (hplain (k, v) (by simp))]
    simp only
    rw [mapSet_fresh acc k _ (hfresh (k, v) (by simp))]
    rw [ih (acc ++ [(k, specConfig v)]) (fun m hm => hplain m (by simp [hm])) hnodup.2]
    · simp
    · intro m hm hmem
      rw [List.map_append, List.mem_append] at hmem
      rcases hmem with hmem | hmem
      · exact hfresh m (by simp [hm]) hmem
      · simp only [List.map_cons, List.map_nil, List.mem_singleton] at hmem
        have hin : m.1 ∈ ms.map Prod.fst := List.mem_map_of_mem Prod.fst hm
        rw [hmem] at hin
        exact hnodup.1 hin

theorem getSymbols_plain_keys (client : Client) (resp : Response) (ms : List (String × JSON))
    (hget : doGet client (DataApiUrl ++ ascii "markets") = (resp, none))
    (hbody : resp.body = some (JSON.object ms))
    (hplain : ∀ m ∈ ms, '\\' ∉ m.1.toList) (hnodup : (ms.map Prod.fst).Nodup) :
    GetSymbols client = (some (ms.map (fun m => (m.1, specConfig m.2))), none) := by
  unfold GetSymbols
  rw [hget]
  simp only [ObjectEach, hbody]
  rw [objectEachLoop_symbols ms [] hplain hnodup (by simp)]
  simp

theorem getSymbols_markets_example :
    GetSymbols (okClient (some marketsBody))
      = (some [("btcusdt", { AmountScale := 3, PriceScale := 2 })], none) ∧
    GetSymbols (okClient (some (JSON.object []))) = (some [], none) := by
  decide

theorem klinesQuery_example :
    klinesQuery (ascii "btc&usdt =%") (ascii "1min") 1700000000000 100
      = ascii "market=btc%26usdt+%3D%25&since=1700000000000&size=100&type=1min" := by
  decide

end Zb
